import Mathlib

/-!
Verification development for the Clerasense ingestion / cross-source
verification / lookup subsystem (`backend/app/services/verification_service.py`,
`drug_ingestion_service.py`, `drug_lookup_service.py`).

The Python code is shallowly embedded:
* Python strings are Lean `String`s; `str.lower` / `str.upper` / `str.strip` /
  `str.title` are modelled character-wise over `String.data` for the ASCII
  fragment (the repository only feeds ASCII drug names and field text through
  these paths; Python's extra Unicode case/space handling is out of scope).
* Python floats are modelled as exact rationals (`ℚ`).  Every confidence value
  produced by the code is a multiple of 1/100, far away from any binary-float
  rounding boundary, so exact arithmetic decides the claims.
* `difflib.SequenceMatcher.ratio()` (used by `_text_similarity`) is ported
  faithfully: the `b2j` index with the default `autojunk` heuristic, the
  longest-matching-block recursion, and the 2*M/T ratio.
* Fallible code returns `Except`/`Option`; the database session is modelled as
  an explicit record of tables, with "rollback" returning the pre-transaction
  store.
* Thread pools (`concurrent.futures`) are modelled by passing the list of
  settled task outcomes in completion order; `as_completed` order is an
  arbitrary permutation of the submitted tasks.
-/

namespace Clerasense

/-! ### Python string primitives (ASCII fragment) -/

/-- `str.lower` on one character (ASCII). -/
def lowerChar (c : Char) : Char :=
  if 65 ≤ c.toNat ∧ c.toNat ≤ 90 then Char.ofNat (c.toNat + 32) else c

/-- `str.upper` on one character (ASCII). -/
def upperChar (c : Char) : Char :=
  if 97 ≤ c.toNat ∧ c.toNat ≤ 122 then Char.ofNat (c.toNat - 32) else c

/-- Python `str.isalpha` for one ASCII character (a cased character). -/
def alphaChar (c : Char) : Bool :=
  decide ((65 ≤ c.toNat ∧ c.toNat ≤ 90) ∨ (97 ≤ c.toNat ∧ c.toNat ≤ 122))

/-- Python whitespace, as used by `str.strip()`: space, \t, \n, \v, \f, \r. -/
def pyWsChar (c : Char) : Bool :=
  decide (c.toNat = 32 ∨ (9 ≤ c.toNat ∧ c.toNat ≤ 13))

/-- `str.lower`. -/
def pyLower (s : String) : String := ⟨s.data.map lowerChar⟩

/-- `str.upper`. -/
def pyUpper (s : String) : String := ⟨s.data.map upperChar⟩

/-- `str.strip()` on the character list: drop leading and trailing whitespace. -/
def stripChars (l : List Char) : List Char :=
  ((l.dropWhile pyWsChar).reverse.dropWhile pyWsChar).reverse

/-- `str.strip()`. -/
def pyStrip (s : String) : String := ⟨stripChars s.data⟩

/-- One character of `str.title()`: a cased character is uppercased when the
previous character was not cased, lowercased otherwise; uncased characters
pass through. -/
def titleChar (prevAlpha : Bool) (c : Char) : Char :=
  if alphaChar c then (if prevAlpha then lowerChar c else upperChar c) else c

/-- The recursion behind `str.title()`, threading the previous character's
cased-ness. -/
def titleAux : Bool → List Char → List Char
  | _, [] => []
  | prev, c :: cs => titleChar prev c :: titleAux (alphaChar c) cs

/-- `str.title()`. -/
def pyTitle (s : String) : String := ⟨titleAux false s.data⟩

/-- Python `needle in hay` substring test on character lists. -/
def listContains (hay needle : List Char) : Bool :=
  needle.isPrefixOf hay ||
    (match hay with
     | [] => false
     | _ :: t => listContains t needle)

/-- SQL `ILIKE` with no wildcard in the pattern: case-insensitive equality
(the service always passes plain names here). -/
def ilike (column pattern : String) : Bool :=
  pyLower column = pyLower pattern

/-- SQL `ILIKE '%pattern%'`: case-insensitive substring containment. -/
def ilikeContains (column pattern : String) : Bool :=
  listContains (pyLower column).data (pyLower pattern).data

/-! ### difflib.SequenceMatcher (isjunk=None, autojunk=True), ported for
`_text_similarity` -/

/-- `b2j` lookup of difflib: the ascending list of positions of `c` in `b`,
with the default autojunk heuristic (for `len(b) >= 200`, elements occurring
more than `len(b) // 100 + 1` times are dropped from the index). -/
def b2jIndex (b : Array Char) (c : Char) : List Nat :=
  if b.size ≥ 200 ∧ b.toList.count c > b.size / 100 + 1 then []
  else (List.range b.size).filter (fun j => b[j]? = some c)

/-- Inner loop of `find_longest_match` for one position `i` of `a`: fold the
candidate `j` positions, building the new `j2len` table and updating the best
block.  Python reads `j2len.get(j-1, 0)`; for `j = 0` that key is `-1` and the
lookup misses, hence the explicit guard. -/
def flmInner (i : Nat) (js : List Nat) (j2len : List (Nat × Nat))
    (best : Nat × Nat × Nat) : List (Nat × Nat) × (Nat × Nat × Nat) :=
  js.foldl
    (fun st j =>
      let prev := if j = 0 then 0 else (List.lookup (j - 1) j2len).getD 0
      let k := prev + 1
      let newTable := st.1 ++ [(j, k)]
      if k > st.2.2.2 then (newTable, (i + 1 - k, j + 1 - k, k))
      else (newTable, st.2))
    ([], best)

/-- The dynamic-programming phase of `find_longest_match` over
`a[alo:ahi]`, `b[blo:bhi]`. -/
def flmCore (a b : Array Char) (alo ahi blo bhi : Nat) : Nat × Nat × Nat :=
  ((List.range' alo (ahi - alo)).foldl
    (fun (st : List (Nat × Nat) × (Nat × Nat × Nat)) i =>
      let js := (b2jIndex b (a.getD i ' ')).filter (fun j => decide (blo ≤ j ∧ j < bhi))
      flmInner i js st.1 st.2)
    ([], (alo, blo, 0))).2

/-- Equality test `a[i] == b[j]` through optional indexing (all uses are
in range). -/
def idxEq (a b : Array Char) (i j : Nat) : Bool :=
  match a[i]?, b[j]? with
  | some ca, some cb => ca = cb
  | _, _ => false

/-- Backward extension loop of `find_longest_match` (with `isjunk=None` the
junk set is empty, so only the non-junk extension loops of difflib act). -/
def extendBack (a b : Array Char) (alo blo besti bestj bestsize : Nat) :
    Nat × Nat × Nat :=
  if h : alo < besti ∧ blo < bestj ∧ idxEq a b (besti - 1) (bestj - 1) then
    extendBack a b alo blo (besti - 1) (bestj - 1) (bestsize + 1)
  else (besti, bestj, bestsize)
termination_by besti
decreasing_by omega

/-- Forward extension loop of `find_longest_match`. -/
def extendFwd (a b : Array Char) (ahi bhi besti bestj bestsize : Nat) : Nat :=
  if h : besti + bestsize < ahi ∧ bestj + bestsize < bhi ∧
      idxEq a b (besti + bestsize) (bestj + bestsize) then
    extendFwd a b ahi bhi besti bestj (bestsize + 1)
  else bestsize
termination_by ahi - (besti + bestsize)
decreasing_by omega

/-- `SequenceMatcher.find_longest_match` (the two junk-extension loops of
difflib are identity because `isjunk=None` leaves the junk set empty). -/
def findLongestMatch (a b : Array Char) (alo ahi blo bhi : Nat) :
    Nat × Nat × Nat :=
  let core := flmCore a b alo ahi blo bhi
  let back := extendBack a b alo blo core.1 core.2.1 core.2.2
  let size := extendFwd a b ahi bhi back.1 back.2.1 back.2.2
  (back.1, back.2.1, size)

/-- Total size of the matching blocks of `get_matching_blocks` on the given
ranges (only the sum matters for `ratio()`).  `fuel` bounds the recursion
depth; every call site supplies more fuel than the ranges can consume. -/
def matchTotal (a b : Array Char) : Nat → Nat → Nat → Nat → Nat → Nat
  | 0, _, _, _, _ => 0
  | fuel + 1, alo, ahi, blo, bhi =>
    let m := findLongestMatch a b alo ahi blo bhi
    if m.2.2 = 0 then 0
    else
      m.2.2 + matchTotal a b fuel alo m.1 blo m.2.1 +
        matchTotal a b fuel (m.1 + m.2.2) ahi (m.2.1 + m.2.2) bhi

/-- `SequenceMatcher(None, a, b).ratio()` = 2*M/T (difflib returns 1.0 when
both sequences are empty). -/
def matcherScore (la lb : List Char) : ℚ :=
  let a := la.toArray
  let b := lb.toArray
  let matched := matchTotal a b (la.length + lb.length + 1) 0 la.length 0 lb.length
  if la.length + lb.length ≠ 0 then
    2 * (matched : ℚ) / ((la.length + lb.length : Nat) : ℚ)
  else 1

/-- `_text_similarity` of `verification_service.py`: 0 on an empty argument,
1 on case/space-normalised equality, else the SequenceMatcher ratio of the
normalised strings. -/
def textSimilarity (a b : String) : ℚ :=
  if a = "" ∨ b = "" then 0
  else
    let aClean := pyStrip (pyLower a)
    let bClean := pyStrip (pyLower b)
    if aClean = bClean then 1
    else matcherScore aClean.data bClean.data

/-! ### Data model (`drug_sources/base_source.py`) -/

/-- One entry of a `NormalizedDrugData.interactions` list.  The adapters
always emit all three keys of the Python dict
`{interacting_drug, severity, description}`. -/
structure Interaction where
  interacting_drug : String
  severity : String
  description : String
deriving DecidableEq, Repr

/-- `NormalizedDrugData` – the unified adapter output (`base_source.py`).
`source_year` defaults to `datetime.now().year` in Python; the clock is
modelled by the fixed `NOW_YEAR` below (no claim observes it). -/
structure NormalizedDrugData where
  generic_name : String
  brand_names : List String := []
  drug_class : String := ""
  mechanism_of_action : String := ""
  indications : List String := []
  adult_dosage : String := ""
  pediatric_dosage : String := ""
  renal_adjustment : String := ""
  hepatic_adjustment : String := ""
  overdose_info : String := ""
  underdose_info : String := ""
  contraindications : String := ""
  black_box_warnings : String := ""
  pregnancy_risk : String := ""
  lactation_risk : String := ""
  interactions : List Interaction := []
  approximate_cost : String := ""
  generic_available : Option Bool := none
  nadac_per_unit : Option ℚ := none
  nadac_ndc : String := ""
  nadac_effective_date : String := ""
  nadac_package_description : String := ""
  adverse_event_count : Option Int := none
  adverse_event_serious_count : Option Int := none
  top_adverse_reactions : List (String × Int) := []
  source_authority : String := ""
  source_document_title : String := ""
  source_url : String := ""
  source_year : Int := 2025
  effective_date : String := ""
  data_retrieved_at : String := ""
deriving DecidableEq, Repr

/-- `VerificationResult` of `verification_service.py` (a dataclass; note that
it has **no** `all_source_urls` field — `drug_ingestion_service.py` reads that
attribute anyway, which is the AttributeError modelled further below). -/
structure VerificationResult where
  verified : Bool := false
  confidence : ℚ := 0
  merged_data : Option NormalizedDrugData := none
  sources_used : List String := []
  conflicts : List String := []
  notes : List String := []
deriving DecidableEq, Repr

/-! ### Verification engine (`verification_service.py`) -/

/-- `AGREEMENT_THRESHOLD = 0.35`. -/
def AGREEMENT_THRESHOLD : ℚ := 35 / 100

/-- `MIN_SOURCES_REQUIRED = 2`. -/
def MIN_SOURCES_REQUIRED : Nat := 2

/-- `_DRUG_CLASS_OVERRIDES` – authoritative drug-class override table. -/
def DRUG_CLASS_OVERRIDES : List (String × String) :=
  [("metformin", "Biguanide Antihyperglycemic"),
   ("atorvastatin", "HMG-CoA Reductase Inhibitor (Statin)"),
   ("simvastatin", "HMG-CoA Reductase Inhibitor (Statin)"),
   ("rosuvastatin", "HMG-CoA Reductase Inhibitor (Statin)"),
   ("ibuprofen", "Nonsteroidal Anti-inflammatory Drug (NSAID)"),
   ("amoxicillin", "Aminopenicillin Antibiotic"),
   ("omeprazole", "Proton Pump Inhibitor"),
   ("amlodipine", "Calcium Channel Blocker"),
   ("metoprolol", "Beta-Adrenergic Blocker"),
   ("hydrochlorothiazide", "Thiazide Diuretic"),
   ("doxycycline", "Tetracycline Antibiotic"),
   ("meloxicam", "Nonsteroidal Anti-inflammatory Drug (NSAID)")]

/-- `_pick_longest`: the longest non-empty text; Python's `max(_, key=len)`
keeps the first of several maxima. -/
def pickLongest (texts : List String) : String :=
  let candidates := texts.filter (fun t => t ≠ "" ∧ pyStrip t ≠ "")
  match candidates with
  | [] => ""
  | c :: cs => cs.foldl (fun best t => if t.length > best.length then t else best) c

/-- One item step of `_merge_lists`: the accumulator carries the `seen` key
set (in insertion order) and the result list. -/
def mergeListsStep (st : List String × List String) (item : String) :
    List String × List String :=
  let key := pyLower (pyStrip item)
  if key ∈ st.1 then st else (st.1 ++ [key], st.2 ++ [item])

/-- `_merge_lists`: union of the given lists, deduplicated by the
lower-cased stripped key, preserving first-seen order. -/
def mergeLists (lists : List (List String)) : List String :=
  (lists.foldl (fun st lst => lst.foldl mergeListsStep st) ([], [])).2

/-- `severity_rank` lookup with default 2 (the Python
`severity_rank.get(_, 2)` for an unknown severity). -/
def severityRank (s : String) : Nat :=
  if s = "contraindicated" then 4
  else if s = "major" then 3
  else if s = "moderate" then 2
  else if s = "minor" then 1
  else 2

/-- Dict key of `_merge_interactions`: `interacting_drug.lower().strip()`. -/
def interactionKey (ix : Interaction) : String := pyStrip (pyLower ix.interacting_drug)

/-- One entry step of `_merge_interactions` over the insertion-ordered dict
(modelled as an association list; Python dict update keeps the key position). -/
def mergeInteractionsStep (m : List (String × Interaction)) (ix : Interaction) :
    List (String × Interaction) :=
  let key := interactionKey ix
  if key = "" then m
  else
    match List.lookup key m with
    | some existing =>
      let newRank := severityRank ix.severity
      let oldRank := severityRank existing.severity
      if newRank > oldRank then
        m.map (fun p => if p.1 = key then (key, ix) else p)
      else if newRank = oldRank ∧ ix.description.length > existing.description.length then
        m.map (fun p => if p.1 = key then (key, ix) else p)
      else m
    | none => m ++ [(key, ix)]

/-- `_merge_interactions`: union-merge keyed by the interacting-drug name,
higher severity wins, longer description breaks severity ties. -/
def mergeInteractions (interaction_lists : List (List Interaction)) : List Interaction :=
  ((interaction_lists.foldl (fun m l => l.foldl mergeInteractionsStep m) []).map (·.2))

/-- `combo_hints` test of the drug-class merge: the lower-cased class text
contains one of "combination", " and ", " with ". -/
def comboHinted (c : String) : Bool :=
  listContains (pyLower c).data "combination".data ||
    listContains (pyLower c).data " and ".data ||
    listContains (pyLower c).data " with ".data

/-- Drug-class selection of `verify_drug_data` when no override applies:
prefer a non-combination class from NIH/NLM, then FDA, then the first
non-combination class, then the longest class text, then empty. -/
def pickDrugClass (valid_data : List NormalizedDrugData) : String :=
  let all_classes := valid_data.filterMap
    (fun d => if d.drug_class ≠ "" then some (d.drug_class, d.source_authority) else none)
  let single_classes := all_classes.filter (fun p => ¬ comboHinted p.1)
  if single_classes ≠ [] then
    match single_classes.find? (fun p => p.2 = "NIH/NLM") with
    | some p => p.1
    | none =>
      match single_classes.find? (fun p => p.2 = "FDA") with
      | some p => p.1
      | none => ((single_classes.head?).map (·.1)).getD ""
  else if all_classes ≠ [] then pickLongest (all_classes.map (·.1))
  else ""

/-- Conflict detection of `verify_drug_data`: for each critical safety field,
compare the first two non-empty values; similarity below the threshold emits a
conflict string.  The Python messages interpolate the similarity with
`%.2f`; the numeric rendering is elided here (no claim reads it). -/
def verifyConflicts (valid_data : List NormalizedDrugData) : List String :=
  let contraConflict :=
    match (valid_data.map (·.contraindications)).filter (· ≠ "") with
    | c0 :: c1 :: _ =>
      if textSimilarity c0 c1 < AGREEMENT_THRESHOLD then
        ["Contraindication descriptions differ significantly (similarity below threshold). Using the most detailed version but flagging for review."]
      else []
    | _ => []
  let bbwConflict :=
    match (valid_data.map (·.black_box_warnings)).filter (· ≠ "") with
    | c0 :: c1 :: _ =>
      if textSimilarity c0 c1 < AGREEMENT_THRESHOLD then
        ["Black box warning descriptions differ (similarity below threshold). Using the most detailed version but flagging for review."]
      else []
    | _ => []
  let pregConflict :=
    match (valid_data.map (·.pregnancy_risk)).filter (· ≠ "") with
    | c0 :: c1 :: _ =>
      if textSimilarity c0 c1 < AGREEMENT_THRESHOLD then
        ["Pregnancy risk information differs (similarity below threshold)."]
      else []
    | _ => []
  contraConflict ++ bbwConflict ++ pregConflict

/-- The minimum-source notes of `verify_drug_data` (emitted when fewer than
`MIN_SOURCES_REQUIRED` sources returned data). -/
def verifyMinSourceNotes (drug_name : String) (valid_data : List NormalizedDrugData) :
    List String :=
  if valid_data.length < MIN_SOURCES_REQUIRED then
    let base := ["Only " ++ toString valid_data.length ++
      " source(s) returned data for \x27" ++ drug_name ++ "\x27. Minimum " ++
      toString MIN_SOURCES_REQUIRED ++ " required for full verification."]
    match valid_data with
    | [d0] =>
      base ++
        [if d0.source_authority = "FDA" ∨ d0.source_authority = "NIH/NLM" then
          "Single " ++ d0.source_authority ++ " source accepted as authoritative."
        else
          "Single non-authoritative source (" ++ d0.source_authority ++
            "); accepting with low confidence."]
    | _ => base
  else []

/-- The merged record built by `verify_drug_data` from the non-None source
records `d0 :: rest` (`d0` is the eagerly evaluated `valid_data[0]` that
serves as the default provenance source). -/
def verifyMerged (drug_name : String) (d0 : NormalizedDrugData)
    (rest : List NormalizedDrugData) : NormalizedDrugData :=
  let valid_data := d0 :: rest
  let fda_source := (valid_data.find? (fun d => d.source_authority = "FDA")).getD d0
  let nadacPick :=
    match valid_data.find? (fun d => d.nadac_per_unit.isSome) with
    | some d => (d.approximate_cost, d.nadac_per_unit, d.nadac_ndc,
        d.nadac_effective_date, d.nadac_package_description)
    | none => ("", none, "", "", "")
  let advPick :=
    match valid_data.find? (fun d => d.adverse_event_count.isSome) with
    | some d => (d.adverse_event_count, d.adverse_event_serious_count,
        d.top_adverse_reactions)
    | none => (none, none, [])
  { generic_name := pyTitle drug_name
    brand_names := mergeLists (valid_data.map (·.brand_names))
    drug_class :=
      match List.lookup (pyStrip (pyLower drug_name)) DRUG_CLASS_OVERRIDES with
      | some c => c
      | none => pickDrugClass valid_data
    mechanism_of_action := pickLongest (valid_data.map (·.mechanism_of_action))
    indications := mergeLists [(valid_data.map (·.indications)).flatten]
    adult_dosage := pickLongest (valid_data.map (·.adult_dosage))
    pediatric_dosage := pickLongest (valid_data.map (·.pediatric_dosage))
    renal_adjustment := pickLongest (valid_data.map (·.renal_adjustment))
    hepatic_adjustment := pickLongest (valid_data.map (·.hepatic_adjustment))
    contraindications := pickLongest (valid_data.map (·.contraindications))
    black_box_warnings := pickLongest (valid_data.map (·.black_box_warnings))
    pregnancy_risk := pickLongest (valid_data.map (·.pregnancy_risk))
    lactation_risk := pickLongest (valid_data.map (·.lactation_risk))
    interactions := mergeInteractions (valid_data.map (·.interactions))
    approximate_cost :=
      if nadacPick.1 = "" then
        match valid_data.find? (fun d => d.approximate_cost ≠ "") with
        | some d => d.approximate_cost
        | none => ""
      else nadacPick.1
    nadac_per_unit := nadacPick.2.1
    nadac_ndc := nadacPick.2.2.1
    nadac_effective_date := nadacPick.2.2.2.1
    nadac_package_description := nadacPick.2.2.2.2
    generic_available :=
      if valid_data.any (fun d => d.generic_available = some true) then some true
      else
        match valid_data.find? (fun d => d.generic_available.isSome) with
        | some d => d.generic_available
        | none => none
    adverse_event_count := advPick.1
    adverse_event_serious_count := advPick.2.1
    top_adverse_reactions := advPick.2.2
    source_authority := fda_source.source_authority
    source_document_title := fda_source.source_document_title
    source_url := fda_source.source_url
    source_year := fda_source.source_year
    effective_date := fda_source.effective_date
    data_retrieved_at := fda_source.data_retrieved_at }

/-- The five key-field bonuses plus the pricing and adverse-event bonuses of
the confidence score. -/
def fieldBonuses (m : NormalizedDrugData) : ℚ :=
  (if m.mechanism_of_action ≠ "" then 8 / 100 else 0) +
  (if m.indications ≠ [] then 8 / 100 else 0) +
  (if m.contraindications ≠ "" then 8 / 100 else 0) +
  (if m.adult_dosage ≠ "" then 8 / 100 else 0) +
  (if m.black_box_warnings ≠ "" ∨ m.contraindications ≠ "" then 8 / 100 else 0) +
  (if m.nadac_per_unit.isSome then 8 / 100 else 0) +
  (if m.adverse_event_count.isSome then 7 / 100 else 0)

/-- The additive confidence score before clamping: corroboration base plus
field bonuses minus the conflict penalty. -/
def confidenceRaw (n : Nat) (m : NormalizedDrugData) (conflicts : List String) : ℚ :=
  min ((n : ℚ) / 4) (35 / 100) + fieldBonuses m - (conflicts.length : ℚ) * (5 / 100)

/-- Python `round(x, 3)` on exact rationals: round half to even at the third
decimal. -/
def roundHalfEven (q : ℚ) : ℤ :=
  let fl := ⌊q⌋
  let fr := q - (fl : ℚ)
  if fr < 1 / 2 then fl
  else if fr > 1 / 2 then fl + 1
  else if fl % 2 = 0 then fl else fl + 1

/-- `round(confidence, 3)`. -/
def pyRound3 (q : ℚ) : ℚ := ((roundHalfEven (q * 1000) : ℤ) : ℚ) / 1000

/-- The `VerificationResult` built on the success path of `verify_drug_data`
(at least one non-None source record). -/
def verifySuccessResult (drug_name : String) (d0 : NormalizedDrugData)
    (rest : List NormalizedDrugData) : VerificationResult :=
  let valid_data := d0 :: rest
  let conflicts := verifyConflicts valid_data
  let merged := verifyMerged drug_name d0 rest
  let confidence := max 0 (min 1 (confidenceRaw valid_data.length merged conflicts))
  let finalNote :=
    if conflicts ≠ [] then
      "Verified with " ++ toString conflicts.length ++
        " conflict(s): data merged using safety-first approach."
    else
      "Verified across " ++ toString valid_data.length ++
        " source(s) with no conflicts."
  { verified := true
    confidence := pyRound3 confidence
    merged_data := some merged
    sources_used := valid_data.map (·.source_authority)
    conflicts := conflicts
    notes := verifyMinSourceNotes drug_name valid_data ++ [finalNote] }

/-- `verify_drug_data`.  The input list may contain `None` entries (Python's
`Optional`); they are filtered out.  When the list is non-empty but every
entry is `None`, line 284 of the Python (`next(..., valid_data[0])`) evaluates
the default `valid_data[0]` eagerly and raises IndexError — modelled as the
`Except.error` branch.  All notes/conflict work preceding that line only
builds the result object that the exception discards. -/
def verifyDrugData (drug_name : String)
    (source_data : List (Option NormalizedDrugData)) :
    Except String VerificationResult :=
  if source_data = [] then
    .ok { notes := ["No data found for \x27" ++ drug_name ++ "\x27 from any source."] }
  else
    match source_data.filterMap id with
    | [] => .error "IndexError: list index out of range"
    | d0 :: rest => .ok (verifySuccessResult drug_name d0 rest)

/-! ### Persistence model (`models/models.py`, SQLAlchemy session)

The store is a record of tables.  A transaction is modelled functionally:
`_insert_verified_drug` builds the post-commit store, and any exception
inside the `try` block discards it (SQLAlchemy `rollback`), returning the
pre-transaction store.  Timestamps are kept as their ISO strings — the
claims never read them — and the wall clock is the fixed pair
`NOW_YEAR`/`NOW_TS`. -/

/-- Stand-in for `datetime.now().year` (no claim observes the clock). -/
def NOW_YEAR : Int := 2025

/-- Stand-in for `datetime.utcnow()` as an ISO string. -/
def NOW_TS : String := "2025-01-01T00:00:00"

/-- `Config.EMBEDDING_MODEL_NAME` (value irrelevant to every claim). -/
def EMBEDDING_MODEL_NAME : String := "all-MiniLM-L6-v2"

/-- A row of the `sources` table. -/
structure SourceRow where
  source_id : Nat
  authority : String
  document_title : String
  publication_year : Int
  url : String
  effective_date : String
  data_retrieved_at : String
deriving DecidableEq, Repr

/-- A row of the `drugs` table. -/
structure DrugRow where
  id : Nat
  generic_name : String
  brand_names : List String
  drug_class : String
  mechanism_of_action : String
  source_id : Nat
deriving DecidableEq, Repr

/-- A row of the `indications` table. -/
structure IndicationRow where
  drug_id : Nat
  approved_use : String
  source_id : Nat
deriving DecidableEq, Repr

/-- A row of the `dosage_guidelines` table (`x or None` column values are
`Option`s). -/
structure DosageRow where
  drug_id : Nat
  adult_dosage : Option String
  pediatric_dosage : Option String
  renal_adjustment : Option String
  hepatic_adjustment : Option String
  source_id : Nat
deriving DecidableEq, Repr

/-- A row of the `safety_warnings` table (`top_adverse_reactions` keeps the
structured list; the `json.dumps` encoding is elided). -/
structure SafetyRow where
  drug_id : Nat
  contraindications : String
  black_box_warnings : Option String
  pregnancy_risk : String
  lactation_risk : String
  adverse_event_count : Option Int
  adverse_event_serious_count : Option Int
  top_adverse_reactions : Option (List (String × Int))
  source_id : Nat
deriving DecidableEq, Repr

/-- A row of the `drug_interactions` table. -/
structure InteractionRow where
  drug_id : Nat
  interacting_drug : String
  severity : String
  description : String
  source_id : Nat
deriving DecidableEq, Repr

/-- A row of the `pricing` table. -/
structure PricingRow where
  drug_id : Nat
  approximate_cost : String
  generic_available : Bool
  nadac_per_unit : Option ℚ
  nadac_ndc : Option String
  nadac_effective_date : Option String
  nadac_package_description : Option String
  pricing_source : String
  source_id : Nat
deriving DecidableEq, Repr

/-- A row of the `embeddings` table. -/
structure EmbeddingRow where
  entity_type : String
  entity_id : Nat
  field_name : String
  embedding : List ℚ
  model_name : String
deriving DecidableEq, Repr

/-- A row of the `ingestion_log` table. -/
structure IngestionLogRow where
  drug_name : String
  source_api : String
  status : String
  confidence : ℚ
  sources_used : List String
  conflicts : Option String
  details : String
deriving DecidableEq, Repr

/-- The database. `next_source_id` / `next_drug_id` model the autoincrement
sequences assigned on flush. -/
structure DB where
  sources : List SourceRow := []
  drugs : List DrugRow := []
  indications : List IndicationRow := []
  dosage_guidelines : List DosageRow := []
  safety_warnings : List SafetyRow := []
  drug_interactions : List InteractionRow := []
  pricing : List PricingRow := []
  embeddings : List EmbeddingRow := []
  ingestion_log : List IngestionLogRow := []
  next_source_id : Nat := 1
  next_drug_id : Nat := 1
deriving DecidableEq, Repr

/-! ### Ingestion orchestrator (`drug_ingestion_service.py`) -/

/-- `x or None` for text columns. -/
def orNone (s : String) : Option String := if s = "" then none else some s

/-- `_get_or_create_source`: find by (authority, document_title) and update
stale fields, or create a new row with the next id.  `year or
datetime.now().year` uses Python truthiness (0 counts as missing);
`datetime.fromisoformat` is modelled as succeeding on every non-empty string
(its failure path only skips the timestamp update). -/
def getOrCreateSource (db : DB) (authority document_title url : String)
    (year : Int) (effective_date data_retrieved_at : String) : SourceRow × DB :=
  match db.sources.find? (fun s => s.authority = authority ∧ s.document_title = document_title) with
  | some existing =>
    let updated : SourceRow :=
      { existing with
        effective_date :=
          if effective_date ≠ "" ∧ existing.effective_date = "" then effective_date
          else existing.effective_date
        data_retrieved_at :=
          if data_retrieved_at ≠ "" then data_retrieved_at else existing.data_retrieved_at
        url := if url ≠ "" ∧ (existing.url = "" ∨ existing.url ≠ url) then url else existing.url }
    (updated,
      { db with sources := db.sources.map (fun s => if s.source_id = existing.source_id then updated else s) })
  | none =>
    let s : SourceRow :=
      { source_id := db.next_source_id
        authority := authority
        document_title := document_title
        publication_year := if year ≠ 0 then year else NOW_YEAR
        url := url
        effective_date := effective_date
        data_retrieved_at := if data_retrieved_at ≠ "" then data_retrieved_at else NOW_TS }
    (s, { db with sources := db.sources ++ [s], next_source_id := db.next_source_id + 1 })

/-- `_drug_exists`: case-insensitive existence probe
(`generic_name ILIKE name.strip()`). -/
def drugExists (db : DB) (generic_name : String) : Bool :=
  db.drugs.any (fun d => ilike d.generic_name (pyStrip generic_name))

/-- The `try` body of `_insert_verified_drug`.  The loop over
`verification.sources_used` reads `verification.all_source_urls` for the
first name that differs from the primary authority; the `VerificationResult`
dataclass defines no such attribute, so that read raises AttributeError. -/
def insertVerifiedDrugBody (db : DB) (data : NormalizedDrugData)
    (verification : VerificationResult) : Except String (DrugRow × DB) :=
  let pr := getOrCreateSource db data.source_authority data.source_document_title
    data.source_url data.source_year data.effective_date data.data_retrieved_at
  let primary_source := pr.1
  let db1 := pr.2
  if verification.sources_used.any (fun s => s ≠ data.source_authority) then
    .error "AttributeError: VerificationResult has no attribute all_source_urls"
  else
    let drug : DrugRow :=
      { id := db1.next_drug_id
        generic_name := pyTitle (pyStrip data.generic_name)
        brand_names := data.brand_names
        drug_class := data.drug_class
        mechanism_of_action := data.mechanism_of_action
        source_id := primary_source.source_id }
    let indicationRows := (data.indications.filter (fun t => t ≠ "" ∧ pyStrip t ≠ "")).map
      (fun t => ({ drug_id := drug.id
                   approved_use := pyStrip t
                   source_id := primary_source.source_id } : IndicationRow))
    let dosageRows : List DosageRow :=
      if data.adult_dosage ≠ "" ∨ data.pediatric_dosage ≠ "" then
        [{ drug_id := drug.id
           adult_dosage := orNone data.adult_dosage
           pediatric_dosage := orNone data.pediatric_dosage
           renal_adjustment := orNone data.renal_adjustment
           hepatic_adjustment := orNone data.hepatic_adjustment
           source_id := primary_source.source_id }]
      else []
    let safetyRow : SafetyRow :=
      { drug_id := drug.id
        contraindications :=
          if data.contraindications = "" then
            "No specific contraindications listed in FDA labeling."
          else data.contraindications
        black_box_warnings := orNone data.black_box_warnings
        pregnancy_risk :=
          if data.pregnancy_risk = "" then
            "Consult prescribing information for pregnancy safety data."
          else data.pregnancy_risk
        lactation_risk :=
          if data.lactation_risk = "" then
            "Consult prescribing information for lactation safety data."
          else data.lactation_risk
        adverse_event_count := data.adverse_event_count
        adverse_event_serious_count := data.adverse_event_serious_count
        top_adverse_reactions :=
          if data.top_adverse_reactions ≠ [] then some data.top_adverse_reactions else none
        source_id := primary_source.source_id }
    let interactionRows := data.interactions.map
      (fun ix => ({ drug_id := drug.id
                    interacting_drug := ix.interacting_drug
                    severity := ix.severity
                    description := ix.description
                    source_id := primary_source.source_id } : InteractionRow))
    -- Pricing: `if data.nadac_per_unit:` uses Python truthiness (0.0 is falsy)
    let nadacTruthy : Bool :=
      match data.nadac_per_unit with
      | some v => decide (v ≠ 0)
      | none => false
    let npr :=
      if nadacTruthy then
        let nadac_url :=
          "https://data.medicaid.gov/dataset/dfa2ab14-06c2-457a-9e36-5cb6d80f8d93?conditions[0][property]=ndc_description&conditions[0][value]=" ++
            pyUpper data.generic_name ++ "&conditions[0][operator]=contains"
        let r := getOrCreateSource db1 "CMS" ("NADAC Weekly Price – " ++ data.generic_name)
          nadac_url data.source_year "" data.data_retrieved_at
        (r.1.source_id, r.2)
      else (primary_source.source_id, db1)
    let pricingRow : PricingRow :=
      { drug_id := drug.id
        approximate_cost :=
          if data.approximate_cost = "" then "Contact pharmacy for current pricing"
          else data.approximate_cost
        generic_available := data.generic_available.getD false
        nadac_per_unit := data.nadac_per_unit
        nadac_ndc := orNone data.nadac_ndc
        nadac_effective_date := orNone data.nadac_effective_date
        nadac_package_description := orNone data.nadac_package_description
        pricing_source := if nadacTruthy then "NADAC" else "estimate"
        source_id := npr.1 }
    let db2 := npr.2
    .ok (drug,
      { db2 with
        drugs := db2.drugs ++ [drug]
        next_drug_id := db2.next_drug_id + 1
        indications := db2.indications ++ indicationRows
        dosage_guidelines := db2.dosage_guidelines ++ dosageRows
        safety_warnings := db2.safety_warnings ++ [safetyRow]
        drug_interactions := db2.drug_interactions ++ interactionRows
        pricing := db2.pricing ++ [pricingRow] })

/-- `_insert_verified_drug`: run the transaction body; an exception rolls the
session back to the pre-transaction store and returns `None`. -/
def insertVerifiedDrug (db : DB) (data : NormalizedDrugData)
    (verification : VerificationResult) : Option DrugRow × DB :=
  match insertVerifiedDrugBody db data verification with
  | .ok r => (some r.1, r.2)
  | .error _ => (none, db)

/-- `_log_ingestion`: append a row to the ingestion log (its own
exception handler never fires in this model). -/
def logIngestion (db : DB) (drug_name source_api status : String) (confidence : ℚ)
    (sources : List String) (conflicts : List String) (notes : String) : DB :=
  { db with ingestion_log := db.ingestion_log ++
      [{ drug_name := drug_name
         source_api := source_api
         status := status
         confidence := confidence
         sources_used := sources
         conflicts := if conflicts ≠ [] then some ("; ".intercalate conflicts) else none
         details := notes }] }

/-- `_generate_embedding_for_drug`: best-effort; `vec` is the result of
`generate_embedding` (`none` covers both a falsy vector and a raised,
swallowed exception; `build_drug_text` itself is elided). -/
def generateEmbeddingForDrug (db : DB) (drug : DrugRow) (vec : Option (List ℚ)) : DB :=
  if db.embeddings.any (fun e => e.entity_type = "drug" ∧ e.entity_id = drug.id ∧
      e.field_name = "full_profile") then db
  else
    match vec with
    | some v =>
      { db with embeddings := db.embeddings ++
          [{ entity_type := "drug", entity_id := drug.id, field_name := "full_profile",
             embedding := v, model_name := EMBEDDING_MODEL_NAME }] }
    | none => db

/-- Outcome of one adapter's `fetch_drug_data` task: a raised exception, a
`None` return, or a normalized record. -/
abbrev FetchOutcome := Except String (Option NormalizedDrugData)

/-- The status dict returned by `ingest_single_drug` (keys absent from a
given status keep their defaults). -/
structure IngestResult where
  drug : String
  status : String
  reason : String := ""
  sources_tried : Nat := 0
  confidence : ℚ := 0
  sources : List String := []
  conflicts : List String := []
  drug_id : Option Nat := none
deriving DecidableEq, Repr

/-- The fetch-phase collection loop of `ingest_single_drug`: iterate the
settled futures in completion order; a raised exception is caught and
logged, a `None` return is dropped (`if data:` — a dataclass instance is
always truthy), and every other record is appended. -/
def collectResults (outcomes : List (String × FetchOutcome)) : List NormalizedDrugData :=
  outcomes.filterMap (fun p =>
    match p.2 with
    | .ok (some d) => some d
    | .ok none => none
    | .error _ => none)

/-- `ingest_single_drug`.  `outcomes` lists the four adapter tasks' results
in completion order; `embedVec` is the enrichment step's embedding result.
An exception escaping `verify_drug_data` would propagate (`Except.error`),
but is unreachable because the collected results contain no `None`. -/
def ingestSingleDrug (db : DB) (drug_name0 : String)
    (outcomes : List (String × FetchOutcome)) (embedVec : Option (List ℚ)) :
    Except String (IngestResult × DB) :=
  let drug_name := pyTitle (pyStrip drug_name0)
  if drugExists db drug_name then
    .ok ({ drug := drug_name, status := "skipped", reason := "Already in database" }, db)
  else
    let source_results := collectResults outcomes
    if source_results = [] then
      .ok ({ drug := drug_name, status := "not_found", reason := "No sources returned data" },
        logIngestion db drug_name "discovery" "not_found" 0 [] [] "No sources returned data")
    else
      match verifyDrugData drug_name (source_results.map some) with
      | .error e => .error e
      | .ok verification =>
        -- `not verification.verified or not verification.merged_data`
        -- (a dataclass is always truthy, so the second test is a None check)
        let reason := "; ".intercalate verification.notes
        let unverifiedStep : IngestResult × DB :=
          ({ drug := drug_name, status := "unverified", reason := reason,
             sources_tried := source_results.length },
           logIngestion db drug_name "verification" "unverified" 0
             verification.sources_used [] reason)
        if verification.verified = false then .ok unverifiedStep
        else
          match verification.merged_data with
          | none => .ok unverifiedStep
          | some md =>
            match insertVerifiedDrug db md verification with
            | (none, dbA) =>
              .ok ({ drug := drug_name, status := "insert_failed",
                     reason := "Database insert failed" },
                logIngestion dbA drug_name "insertion" "failed" 0
                  verification.sources_used [] "Database insert failed")
            | (some drug, dbA) =>
              let dbB := generateEmbeddingForDrug dbA drug embedVec
              let dbC := logIngestion dbB drug_name "ingestion" "ingested"
                verification.confidence verification.sources_used verification.conflicts ""
              .ok ({ drug := drug_name, status := "ingested",
                     confidence := verification.confidence,
                     sources := verification.sources_used,
                     conflicts := verification.conflicts,
                     drug_id := some drug.id }, dbC)

/-! ### Lookup / concurrency service (`drug_lookup_service.py`) -/

/-- The phase-1 match cascade of `lookup_drugs` (also the store part of
`lookup_drug`): exact case-insensitive match, then substring match, then a
linear brand-name scan. -/
def resolveInStore (db : DB) (name : String) : Option DrugRow :=
  match db.drugs.find? (fun d => ilike d.generic_name name) with
  | some d => some d
  | none =>
    match db.drugs.find? (fun d => ilikeContains d.generic_name name) with
    | some d => some d
    | none => db.drugs.find? (fun d => d.brand_names.any (fun b => pyLower b = pyLower name))

/-- `_on_demand_ingest`: run the orchestrator, then re-query the store by
name.  On an `ingested` status whose re-query misses, the Python falls
through the `skipped` check to `return None`; an exception is caught and
returns `None` (the only modelled raise precedes any store write). -/
def onDemandIngest (db : DB) (name : String)
    (outcomes : List (String × FetchOutcome)) (embedVec : Option (List ℚ)) :
    Option DrugRow × DB :=
  match ingestSingleDrug db name outcomes embedVec with
  | .error _ => (none, db)
  | .ok r =>
    let db' := r.2
    if r.1.status = "ingested" ∨ r.1.status = "skipped" then
      (db'.drugs.find? (fun d => ilike d.generic_name (pyStrip name)), db')
    else (none, db')

/-- Python dict assignment on an insertion-ordered association list: replace
in place when the key exists, append otherwise. -/
def assocInsert (m : List (String × DrugRow)) (k : String) (v : DrugRow) :
    List (String × DrugRow) :=
  if (List.lookup k m).isSome then m.map (fun p => if p.1 = k then (k, v) else p)
  else m ++ [(k, v)]

/-- Phase 1 of `lookup_drugs`: fast store scan, splitting the cleaned names
into the name→record map and the miss list. -/
def lookupPhase1 (db : DB) (clean_names : List String) :
    List (String × DrugRow) × List String :=
  clean_names.foldl
    (fun st name =>
      match resolveInStore db name with
      | some d => (assocInsert st.1 name d, st.2)
      | none => (st.1, st.2 ++ [name]))
    ([], [])

/-- Phase 2 of `lookup_drugs`: the parallel fill.  `completionOrder` is the
order in which the worker-pool futures settle (any permutation of the miss
list); each task runs the orchestrator in its own context, successes are
added to the map, failures leave the name missing. -/
def lookupPhase2 (found_map0 : List (String × DrugRow)) (db : DB)
    (fetchFor : String → List (String × FetchOutcome))
    (embedFor : String → Option (List ℚ)) (completionOrder : List String) :
    List (String × DrugRow) × DB :=
  completionOrder.foldl
    (fun st name =>
      let r := onDemandIngest st.2 name (fetchFor name) (embedFor name)
      match r.1 with
      | some d => (assocInsert st.1 name d, r.2)
      | none => (st.1, r.2))
    (found_map0, db)

/-- Phase 3 reload: `{d.id: d for d in Drug.query.filter(Drug.id.in_(ids))}`
as a partial function from row id to row. -/
def reloadById (db2 : DB) (drug_ids : List Nat) (i : Nat) : Option DrugRow :=
  db2.drugs.find? (fun d => d.id = i ∧ i ∈ drug_ids)

/-- One name of the phase-3 assembly loop of `lookup_drugs`: a mapped name
whose record reloads and whose id is unseen contributes the reloaded record;
an unmapped name goes to `not_found`; a mapped name whose id was already
emitted (or whose reload misses) contributes nothing. -/
def lookupPhase3Step (found_map : List (String × DrugRow)) (db2 : DB)
    (drug_ids : List Nat) (st : List DrugRow × List String × List Nat)
    (name : String) : List DrugRow × List String × List Nat :=
  match List.lookup name found_map with
  | some d =>
    match reloadById db2 drug_ids d.id with
    | some rd => if d.id ∈ st.2.2 then st else (st.1 ++ [rd], st.2.1, st.2.2 ++ [d.id])
    | none => st
  | none => (st.1, st.2.1 ++ [name], st.2.2)

/-- Phase 3 assembly loop of `lookup_drugs`: walk the cleaned names in caller
order, deduplicating emitted records by row id. -/
def lookupPhase3 (found_map : List (String × DrugRow)) (db2 : DB)
    (clean_names : List String) : List DrugRow × List String :=
  let drug_ids := found_map.map (fun p => p.2.id)
  let final := clean_names.foldl (lookupPhase3Step found_map db2 drug_ids) ([], [], [])
  (final.1, final.2.1)

/-- `lookup_drugs`: batch lookup with parallel on-demand ingestion for
misses.  `fetchFor`/`embedFor` give each per-name ingestion task's adapter
outcomes and embedding result; `completionOrder` is the settle order of the
phase-2 futures. -/
def lookupDrugs (db : DB) (fetchFor : String → List (String × FetchOutcome))
    (embedFor : String → Option (List ℚ)) (completionOrder : List String)
    (names : List String) : List DrugRow × List String :=
  if names = [] then ([], [])
  else
    let clean_names := (names.map pyStrip).filter (· ≠ "")
    if clean_names = [] then ([], [])
    else
      let p1 := lookupPhase1 db clean_names
      let p2 := lookupPhase2 p1.1 db fetchFor embedFor completionOrder
      lookupPhase3 p2.1 p2.2 clean_names

/-- The miss list computed by phase 1 (what the worker pool is fed; the
futures settle in some permutation of it). -/
def lookupMissing (db : DB) (names : List String) : List String :=
  (lookupPhase1 db ((names.map pyStrip).filter (· ≠ ""))).2

/-- Store sanity: row ids are unique and below the autoincrement cursor. -/
def DBok (db : DB) : Prop :=
  (db.drugs.map (·.id)).Nodup ∧ ∀ d ∈ db.drugs, d.id < db.next_drug_id

/-- Order-preserving deduplication by row id with an explicit seen set (the
declarative description of the phase-3 loop). -/
def dedupByIdAux : List DrugRow → List Nat → List DrugRow × List Nat
  | [], seen => ([], seen)
  | d :: ds, seen =>
    if d.id ∈ seen then dedupByIdAux ds seen
    else
      let r := dedupByIdAux ds (seen ++ [d.id])
      (d :: r.1, r.2)

/-- Order-preserving deduplication by row id. -/
def dedupById (l : List DrugRow) : List DrugRow := (dedupByIdAux l []).1

/-! ### Concrete records used by witnesses and counterexamples -/

/-- An FDA record carrying only a brand name (permutation counterexample). -/
def cexBrandFDA : NormalizedDrugData :=
  { generic_name := "Drugx", brand_names := ["Alpha"], source_authority := "FDA" }

/-- An NIH/NLM record carrying only a brand name (permutation counterexample). -/
def cexBrandNIH : NormalizedDrugData :=
  { generic_name := "Drugx", brand_names := ["Beta"], source_authority := "NIH/NLM" }

/-- A fully populated single record from a non-authoritative source. -/
def cexSingleRich : NormalizedDrugData :=
  { generic_name := "Zzz"
    mechanism_of_action := "Inhibits an enzyme"
    indications := ["Condition"]
    contraindications := "Do not use in renal failure"
    adult_dosage := "10 mg daily"
    source_authority := "CMS" }

/-- A sparse record from a non-authoritative source. -/
def wSparse : NormalizedDrugData :=
  { generic_name := "Wdrug", source_authority := "Community" }

/-- A populated FDA record. -/
def wFda : NormalizedDrugData :=
  { generic_name := "Aspirin"
    mechanism_of_action := "Cyclooxygenase inhibition"
    indications := ["Pain"]
    contraindications := "Active bleeding"
    adult_dosage := "325 mg"
    source_authority := "FDA"
    source_document_title := "FDA label"
    source_url := "https://example.org/aspirin" }

/-- An NIH/NLM record carrying a brand name. -/
def wNih : NormalizedDrugData :=
  { generic_name := "Aspirin", brand_names := ["Ecotrin"], source_authority := "NIH/NLM" }

/-- Adapter outcomes for an end-to-end single-FDA-source ingestion. -/
def wOutcomes : List (String × FetchOutcome) :=
  [("OpenFDA", .ok (some wFda)), ("DailyMed", .ok none),
   ("RxNorm", .ok none), ("NADAC", .ok none)]

/-- A store holding one drug for the batch-lookup witness. -/
def w8drug : DrugRow :=
  { id := 1, generic_name := "Metformin", brand_names := ["Glucophage"],
    drug_class := "", mechanism_of_action := "", source_id := 1 }

/-- The batch-lookup witness store. -/
def w8db : DB := { drugs := [w8drug], next_drug_id := 2 }

/-- A verification result naming two authorities (multi-authority insert). -/
def w2ver : VerificationResult :=
  { verified := true, sources_used := ["FDA", "NIH/NLM"], merged_data := some wFda }

/-- The batch-lookup witness request: one exact hit, one miss whose
ingestion fails, and a brand-name hit on the same stored record. -/
def w8names : List String := ["  metformin ", "unknowndrug", "GLUCOPHAGE"]

/-- Adapter outcomes for the batch-lookup witness: every fetch raises. -/
def w8fetch : String → List (String × FetchOutcome) := fun _ =>
  [("OpenFDA", Except.error "connection refused")]

/-- Embedding outcomes for the batch-lookup witness. -/
def w8embed : String → Option (List ℚ) := fun _ => none

/-- Interaction entries colliding on the same key. -/
def ixModerate : Interaction :=
  { interacting_drug := "DrugX", severity := "moderate", description := "short text" }

/-- The higher-severity colliding entry. -/
def ixMajor : Interaction :=
  { interacting_drug := "drugx", severity := "major", description := "d" }

/-! ### Character-level lemmas for the Python string primitives -/

theorem toNat_ofNat_small (n : Nat) (h : n ≤ 1000) : (Char.ofNat n).toNat = n := by
  have hv : n.isValidChar := Or.inl (by omega)
  simp [Char.ofNat, hv, Char.toNat, Char.ofNatAux, UInt32.toNat, UInt32.ofNatCore,
    BitVec.toNat_ofNatLt]

theorem lowerChar_eq_self (c : Char) (h : ¬ (65 ≤ c.toNat ∧ c.toNat ≤ 90)) :
    lowerChar c = c := by
  unfold lowerChar
  rw [if_neg h]

theorem upperChar_eq_self (c : Char) (h : ¬ (97 ≤ c.toNat ∧ c.toNat ≤ 122)) :
    upperChar c = c := by
  unfold upperChar
  rw [if_neg h]

theorem lowerChar_toNat (c : Char) (h : 65 ≤ c.toNat ∧ c.toNat ≤ 90) :
    (lowerChar c).toNat = c.toNat + 32 := by
  unfold lowerChar
  rw [if_pos h]
  exact toNat_ofNat_small _ (by omega)

theorem upperChar_toNat (c : Char) (h : 97 ≤ c.toNat ∧ c.toNat ≤ 122) :
    (upperChar c).toNat = c.toNat - 32 := by
  unfold upperChar
  rw [if_pos h]
  exact toNat_ofNat_small _ (by omega)

theorem lowerChar_upperChar (c : Char) : lowerChar (upperChar c) = lowerChar c := by
  by_cases h : 97 ≤ c.toNat ∧ c.toNat ≤ 122
  · have ht : (upperChar c).toNat = c.toNat - 32 := upperChar_toNat c h
    have h2 : 65 ≤ (upperChar c).toNat ∧ (upperChar c).toNat ≤ 90 := by omega
    have h3 : ¬ (65 ≤ c.toNat ∧ c.toNat ≤ 90) := by omega
    unfold lowerChar
    rw [if_pos h2, if_neg h3, ht]
    have : c.toNat - 32 + 32 = c.toNat := by omega
    rw [this, Char.ofNat_toNat]
  · unfold upperChar
    rw [if_neg h]

theorem lowerChar_lowerChar (c : Char) : lowerChar (lowerChar c) = lowerChar c := by
  by_cases h : 65 ≤ c.toNat ∧ c.toNat ≤ 90
  · have ht : (lowerChar c).toNat = c.toNat + 32 := lowerChar_toNat c h
    exact lowerChar_eq_self _ (by omega)
  · rw [lowerChar_eq_self c h]
    exact lowerChar_eq_self c h

theorem pyWsChar_iff (c : Char) :
    pyWsChar c = true ↔ (c.toNat = 32 ∨ (9 ≤ c.toNat ∧ c.toNat ≤ 13)) := by
  simp [pyWsChar]

theorem alphaChar_iff (c : Char) :
    alphaChar c = true ↔ ((65 ≤ c.toNat ∧ c.toNat ≤ 90) ∨ (97 ≤ c.toNat ∧ c.toNat ≤ 122)) := by
  simp [alphaChar]

theorem ws_not_alpha (c : Char) (h : pyWsChar c = true) : alphaChar c = false := by
  rw [pyWsChar_iff] at h
  rw [Bool.eq_false_iff]
  intro ha
  rw [alphaChar_iff] at ha
  omega

theorem pyWsChar_lowerChar (c : Char) : pyWsChar (lowerChar c) = pyWsChar c := by
  by_cases h : 65 ≤ c.toNat ∧ c.toNat ≤ 90
  · have ht : (lowerChar c).toNat = c.toNat + 32 := lowerChar_toNat c h
    have h1 : pyWsChar (lowerChar c) = false := by
      rw [Bool.eq_false_iff]; intro hw; rw [pyWsChar_iff] at hw; omega
    have h2 : pyWsChar c = false := by
      rw [Bool.eq_false_iff]; intro hw; rw [pyWsChar_iff] at hw; omega
    rw [h1, h2]
  · unfold lowerChar
    rw [if_neg h]

theorem pyWsChar_upperChar (c : Char) : pyWsChar (upperChar c) = pyWsChar c := by
  by_cases h : 97 ≤ c.toNat ∧ c.toNat ≤ 122
  · have ht : (upperChar c).toNat = c.toNat - 32 := upperChar_toNat c h
    have h1 : pyWsChar (upperChar c) = false := by
      rw [Bool.eq_false_iff]; intro hw; rw [pyWsChar_iff] at hw; omega
    have h2 : pyWsChar c = false := by
      rw [Bool.eq_false_iff]; intro hw; rw [pyWsChar_iff] at hw; omega
    rw [h1, h2]
  · unfold upperChar
    rw [if_neg h]

theorem pyWsChar_titleChar (p : Bool) (c : Char) :
    pyWsChar (titleChar p c) = pyWsChar c := by
  unfold titleChar
  by_cases ha : alphaChar c
  · rw [if_pos ha]
    cases p
    · simp only [Bool.false_eq_true, if_false, pyWsChar_upperChar]
    · simp only [if_true, pyWsChar_lowerChar]
  · rw [if_neg ha]

theorem lowerChar_titleChar (p : Bool) (c : Char) :
    lowerChar (titleChar p c) = lowerChar c := by
  unfold titleChar
  by_cases ha : alphaChar c
  · rw [if_pos ha]
    cases p
    · simp only [Bool.false_eq_true, if_false, lowerChar_upperChar]
    · simp only [if_true, lowerChar_lowerChar]
  · rw [if_neg ha]

/-! ### List-level lemmas: `title`, `lower` and `strip` interaction -/

theorem titleAux_map_lower (p : Bool) (l : List Char) :
    (titleAux p l).map lowerChar = l.map lowerChar := by
  induction l generalizing p with
  | nil => rfl
  | cons c cs ih =>
    simp only [titleAux, List.map_cons, lowerChar_titleChar, ih]

theorem titleAux_map_ws (p : Bool) (l : List Char) :
    (titleAux p l).map pyWsChar = l.map pyWsChar := by
  induction l generalizing p with
  | nil => rfl
  | cons c cs ih =>
    simp only [titleAux, List.map_cons, pyWsChar_titleChar, ih]

theorem titleChar_of_ws (p : Bool) (c : Char) (h : pyWsChar c = true) :
    titleChar p c = c := by
  unfold titleChar
  rw [ws_not_alpha c h]
  simp

theorem titleAux_of_allws (q : Bool) (w : List Char) (h : ∀ c ∈ w, pyWsChar c = true) :
    titleAux q w = w := by
  induction w generalizing q with
  | nil => rfl
  | cons c cs ih =>
    simp only [titleAux]
    rw [titleChar_of_ws q c (h c (by simp)), ih _ (fun x hx => h x (by simp [hx]))]

theorem titleAux_append_ws (p : Bool) (xs w : List Char)
    (h : ∀ c ∈ w, pyWsChar c = true) : titleAux p (xs ++ w) = titleAux p xs ++ w := by
  induction xs generalizing p with
  | nil => simpa using titleAux_of_allws p w h
  | cons c cs ih =>
    simp only [List.cons_append, titleAux]
    exact congrArg (titleChar p c :: ·) (ih (alphaChar c))

theorem dropWhile_ws_titleAux (l : List Char) :
    (titleAux false l).dropWhile pyWsChar = titleAux false (l.dropWhile pyWsChar) := by
  induction l with
  | nil => rfl
  | cons c cs ih =>
    by_cases hw : pyWsChar c = true
    · simp only [titleAux, List.dropWhile_cons]
      rw [titleChar_of_ws false c hw, ws_not_alpha c hw]
      simp only [hw, if_true, ih]
    · simp only [titleAux, List.dropWhile_cons]
      have hw2 : pyWsChar (titleChar false c) = false := by
        rw [pyWsChar_titleChar]
        exact Bool.eq_false_iff.mpr hw
      simp only [hw2, Bool.false_eq_true, if_false, Bool.eq_false_iff.mpr hw]
      rfl

theorem dropWhile_eq_self_of_head (p : Char → Bool) (l : List Char)
    (h : ∀ x, l.head? = some x → p x = false) : l.dropWhile p = l := by
  cases l with
  | nil => rfl
  | cons c cs =>
    simp only [List.dropWhile_cons, h c rfl, Bool.false_eq_true, if_false]

theorem dropWhile_append_of_allsat (p : Char → Bool) (w l : List Char)
    (h : ∀ c ∈ w, p c = true) : (w ++ l).dropWhile p = l.dropWhile p := by
  rw [List.dropWhile_append]
  have : w.dropWhile p = [] := List.dropWhile_eq_nil_iff.mpr h
  simp [this]

theorem head?_map_congr {α : Type} (f : Char → α) (l1 l2 : List Char)
    (h : l1.map f = l2.map f) : l1.head?.map f = l2.head?.map f := by
  cases l1 with
  | nil =>
    cases l2 with
    | nil => rfl
    | cons d ds => simp at h
  | cons c cs =>
    cases l2 with
    | nil => simp at h
    | cons d ds =>
      simp only [List.map_cons, List.cons.injEq] at h
      simp [h.1]

/-- `strip` and `title` commute: stripping titled text equals titling
stripped text. -/
theorem stripChars_titleAux (l : List Char) :
    stripChars (titleAux false l) = titleAux false (stripChars l) := by
  unfold stripChars
  rw [dropWhile_ws_titleAux]
  set m := l.dropWhile pyWsChar with hm
  -- decompose m into its core and maximal whitespace suffix
  have hsplit : (m.reverse.takeWhile pyWsChar) ++ (m.reverse.dropWhile pyWsChar) = m.reverse :=
    List.takeWhile_append_dropWhile pyWsChar m.reverse
  set w := m.reverse.takeWhile pyWsChar with hw
  set rcore := m.reverse.dropWhile pyWsChar with hrcore
  have hm2 : m = rcore.reverse ++ w.reverse := by
    have := congrArg List.reverse hsplit
    simpa [List.reverse_append] using this.symm
  have hwW : ∀ c ∈ w, pyWsChar c = true := by
    intro c hc
    exact List.mem_takeWhile_imp (hw ▸ hc)
  have hwws : ∀ c ∈ w.reverse, pyWsChar c = true := by
    intro c hc
    exact hwW c (by simpa using hc)
  rw [hm2, titleAux_append_ws _ _ _ hwws]
  rw [List.reverse_append, List.reverse_reverse]
  rw [dropWhile_append_of_allsat pyWsChar _ _ hwW]
  -- the reversed titled core starts with a non-whitespace character
  have hmap : (titleAux false rcore.reverse).reverse.map pyWsChar =
      rcore.map pyWsChar := by
    rw [List.map_reverse, titleAux_map_ws, ← List.map_reverse, List.reverse_reverse]
  have hrfirst : ∀ y, rcore.head? = some y → pyWsChar y = false := by
    intro y hy
    have hfact := List.head?_dropWhile_not pyWsChar m.reverse
    rw [← hrcore, hy] at hfact
    exact hfact
  have hhead : ∀ x, (titleAux false rcore.reverse).reverse.head? = some x →
      pyWsChar x = false := by
    intro x hx
    have h1 : (titleAux false rcore.reverse).reverse.head?.map pyWsChar =
        rcore.head?.map pyWsChar := head?_map_congr pyWsChar _ _ hmap
    rw [hx] at h1
    cases hr : rcore.head? with
    | none =>
      rw [hr] at h1
      exact absurd h1 (by simp)
    | some y =>
      rw [hr] at h1
      have hxy : pyWsChar x = pyWsChar y := by
        simpa using h1
      rw [hxy]
      exact hrfirst y hr
  rw [dropWhile_eq_self_of_head pyWsChar _ hhead, List.reverse_reverse]

/-- `lower` erases `title`: `s.title().lower() == s.lower()`. -/
theorem pyLower_pyTitle (s : String) : pyLower (pyTitle s) = pyLower s := by
  unfold pyLower pyTitle
  exact congrArg String.mk (titleAux_map_lower false s.data)

/-- `strip` and `title` commute on strings. -/
theorem pyStrip_pyTitle (s : String) : pyStrip (pyTitle s) = pyTitle (pyStrip s) := by
  unfold pyStrip pyTitle
  exact congrArg String.mk (stripChars_titleAux s.data)

/-- The generic name stored by `_insert_verified_drug`
(`merged.generic_name.strip().title()` with `merged.generic_name = t.title()`)
matches the case-insensitive existence probe `t.strip()` of `_drug_exists`. -/
theorem stored_name_matches (t : String) :
    ilike (pyTitle (pyStrip (pyTitle t))) (pyStrip t) = true := by
  unfold ilike
  rw [pyLower_pyTitle, pyStrip_pyTitle, pyLower_pyTitle]
  simp

/-! ### Arithmetic helpers: the confidence values are multiples of 1/100 and
`round(_, 3)` is the identity on the clamped score -/

theorem roundHalfEven_intCast (k : ℤ) : roundHalfEven (k : ℚ) = k := by
  unfold roundHalfEven
  rw [Int.floor_intCast]
  simp only [sub_self]
  norm_num

theorem pyRound3_hundredth (i : ℤ) : pyRound3 ((i : ℚ) / 100) = (i : ℚ) / 100 := by
  unfold pyRound3
  have h : (i : ℚ) / 100 * 1000 = ((10 * i : ℤ) : ℚ) := by push_cast; ring
  rw [h, roundHalfEven_intCast]
  push_cast
  ring

theorem clamp_cases (x : ℚ) :
    max 0 (min 1 x) = 0 ∨ max 0 (min 1 x) = 1 ∨ max 0 (min 1 x) = x := by
  rcases le_total x 0 with h | h
  · left
    rw [min_eq_right (by linarith : x ≤ (1 : ℚ)), max_eq_left h]
  · rcases le_total 1 x with h2 | h2
    · right; left
      rw [min_eq_left h2, max_eq_right (by norm_num : (0 : ℚ) ≤ 1)]
    · right; right
      rw [min_eq_right h2, max_eq_right h]

theorem pyRound3_clamp (x : ℚ) (hx : ∃ i : ℤ, x = (i : ℚ) / 100) :
    pyRound3 (max 0 (min 1 x)) = max 0 (min 1 x) := by
  obtain ⟨i, rfl⟩ := hx
  rcases clamp_cases ((i : ℚ) / 100) with h | h | h <;> rw [h]
  · have := pyRound3_hundredth 0
    simpa using this
  · have := pyRound3_hundredth 100
    norm_num at this
    exact this
  · exact pyRound3_hundredth i

theorem ite_hundredth (P : Prop) [Decidable P] (q : ℚ) (hq : ∃ k : ℤ, q = (k : ℚ) / 100) :
    ∃ i : ℤ, (if P then q else 0) = (i : ℚ) / 100 := by
  obtain ⟨k, hk⟩ := hq
  split
  · exact ⟨k, hk⟩
  · exact ⟨0, by norm_num⟩

theorem fieldBonuses_hundredth (m : NormalizedDrugData) :
    ∃ i : ℤ, fieldBonuses m = (i : ℚ) / 100 := by
  unfold fieldBonuses
  obtain ⟨i1, h1⟩ := ite_hundredth (m.mechanism_of_action ≠ "") ((8 : ℚ) / 100) ⟨8, by norm_num⟩
  obtain ⟨i2, h2⟩ := ite_hundredth (m.indications ≠ []) ((8 : ℚ) / 100) ⟨8, by norm_num⟩
  obtain ⟨i3, h3⟩ := ite_hundredth (m.contraindications ≠ "") ((8 : ℚ) / 100) ⟨8, by norm_num⟩
  obtain ⟨i4, h4⟩ := ite_hundredth (m.adult_dosage ≠ "") ((8 : ℚ) / 100) ⟨8, by norm_num⟩
  obtain ⟨i5, h5⟩ := ite_hundredth (m.black_box_warnings ≠ "" ∨ m.contraindications ≠ "")
    ((8 : ℚ) / 100) ⟨8, by norm_num⟩
  obtain ⟨i6, h6⟩ := ite_hundredth (m.nadac_per_unit.isSome = true) ((8 : ℚ) / 100) ⟨8, by norm_num⟩
  obtain ⟨i7, h7⟩ := ite_hundredth (m.adverse_event_count.isSome = true) ((7 : ℚ) / 100) ⟨7, by norm_num⟩
  refine ⟨i1 + i2 + i3 + i4 + i5 + i6 + i7, ?_⟩
  rw [h1, h2, h3, h4, h5, h6, h7]
  push_cast
  ring

theorem ite_bonus_bounds (P : Prop) [Decidable P] (b : ℚ) (hb : 0 ≤ b) :
    0 ≤ (if P then b else 0) ∧ (if P then b else 0) ≤ b := by
  split
  · exact ⟨hb, le_refl b⟩
  · exact ⟨le_refl 0, hb⟩

theorem fieldBonuses_bounds (m : NormalizedDrugData) :
    0 ≤ fieldBonuses m ∧ fieldBonuses m ≤ 55 / 100 := by
  unfold fieldBonuses
  have h1 := ite_bonus_bounds (m.mechanism_of_action ≠ "") ((8 : ℚ) / 100) (by norm_num)
  have h2 := ite_bonus_bounds (m.indications ≠ []) ((8 : ℚ) / 100) (by norm_num)
  have h3 := ite_bonus_bounds (m.contraindications ≠ "") ((8 : ℚ) / 100) (by norm_num)
  have h4 := ite_bonus_bounds (m.adult_dosage ≠ "") ((8 : ℚ) / 100) (by norm_num)
  have h5 := ite_bonus_bounds (m.black_box_warnings ≠ "" ∨ m.contraindications ≠ "")
    ((8 : ℚ) / 100) (by norm_num)
  have h6 := ite_bonus_bounds (m.nadac_per_unit.isSome = true) ((8 : ℚ) / 100) (by norm_num)
  have h7 := ite_bonus_bounds (m.adverse_event_count.isSome = true) ((7 : ℚ) / 100) (by norm_num)
  constructor <;> linarith [h1.1, h1.2, h2.1, h2.2, h3.1, h3.2, h4.1, h4.2, h5.1, h5.2,
    h6.1, h6.2, h7.1, h7.2]

theorem confidenceRaw_hundredth (n : Nat) (m : NormalizedDrugData) (c : List String) :
    ∃ i : ℤ, confidenceRaw n m c = (i : ℚ) / 100 := by
  unfold confidenceRaw
  obtain ⟨ib, hb⟩ := fieldBonuses_hundredth m
  rcases min_choice ((n : ℚ) / 4) (35 / 100) with h | h <;> rw [h, hb]
  · refine ⟨25 * n + ib - 5 * c.length, ?_⟩
    push_cast
    ring
  · refine ⟨35 + ib - 5 * c.length, ?_⟩
    push_cast
    ring

theorem confidenceRaw_le (n : Nat) (m : NormalizedDrugData) (c : List String) :
    confidenceRaw n m c ≤ 9 / 10 := by
  unfold confidenceRaw
  have h1 : min ((n : ℚ) / 4) (35 / 100) ≤ 35 / 100 := min_le_right _ _
  have h2 := (fieldBonuses_bounds m).2
  have h3 : (0 : ℚ) ≤ (c.length : ℚ) * (5 / 100) := by positivity
  linarith

theorem roundHalfEven_le (q : ℚ) (n : ℤ) (h : q ≤ (n : ℚ)) : roundHalfEven q ≤ n := by
  have hfl : ⌊q⌋ ≤ n := by
    have h2 := Int.floor_le_floor h
    rwa [Int.floor_intCast] at h2
  unfold roundHalfEven
  by_cases hcase : q - ((⌊q⌋ : ℤ) : ℚ) < 1 / 2
  · rw [if_pos hcase]
    exact hfl
  · have hlt : ⌊q⌋ < n := by
      rcases lt_or_eq_of_le hfl with hlt | heq
      · exact hlt
      · exfalso
        apply hcase
        rw [heq]
        have : q - (n : ℚ) ≤ 0 := by linarith
        linarith
    rw [if_neg hcase]
    split_ifs <;> omega

theorem pyRound3_le_nine_tenths (q : ℚ) (h : q ≤ 9 / 10) : pyRound3 q ≤ 9 / 10 := by
  unfold pyRound3
  have h9 : q * 1000 ≤ ((900 : ℤ) : ℚ) := by push_cast; linarith
  have hr := roundHalfEven_le (q * 1000) 900 h9
  have hc : ((roundHalfEven (q * 1000) : ℤ) : ℚ) ≤ 900 := by exact_mod_cast hr
  linarith

theorem verifyConflicts_singleton (d : NormalizedDrugData) : verifyConflicts [d] = [] := by
  unfold verifyConflicts
  simp only [List.map_cons, List.map_nil, List.filter_cons, List.filter_nil]
  by_cases h1 : d.contraindications ≠ "" <;>
    by_cases h2 : d.black_box_warnings ≠ "" <;>
      by_cases h3 : d.pregnancy_risk ≠ "" <;>
        simp [h1, h2, h3]

/-! ### Inversion of `verifyDrugData` -/

theorem verify_ok_cases (name : String) (l : List (Option NormalizedDrugData))
    (r : VerificationResult) (hok : verifyDrugData name l = .ok r) :
    (l = [] ∧ r = { notes := ["No data found for \x27" ++ name ++ "\x27 from any source."] }) ∨
    ∃ d0 rest, l.filterMap id = d0 :: rest ∧ r = verifySuccessResult name d0 rest := by
  by_cases h : l = []
  · left
    refine ⟨h, ?_⟩
    subst h
    unfold verifyDrugData at hok
    rw [if_pos rfl] at hok
    simp only [Except.ok.injEq] at hok
    exact hok.symm
  · right
    unfold verifyDrugData at hok
    rw [if_neg h] at hok
    cases hfm : l.filterMap id with
    | nil =>
      rw [hfm] at hok
      simp at hok
    | cons d0 rest =>
      rw [hfm] at hok
      simp only [Except.ok.injEq] at hok
      exact ⟨d0, rest, rfl, hok.symm⟩

theorem verify_ok_of_cons (name : String) (l : List (Option NormalizedDrugData))
    (d0 : NormalizedDrugData) (rest : List NormalizedDrugData) (hne : l ≠ [])
    (hfm : l.filterMap id = d0 :: rest) :
    verifyDrugData name l = .ok (verifySuccessResult name d0 rest) := by
  unfold verifyDrugData
  rw [if_neg hne, hfm]

/-! ### C3: totality of `verify_drug_data` -/

/-- C3 counterexample: contrary to the claim that `verify_drug_data` never
raises an exception for any input list including lists containing `None`
entries, the concrete input `[None]` raises IndexError (the eagerly evaluated
default `valid_data[0]` at the provenance-selection line). -/
theorem verify_raises_on_all_none :
    verifyDrugData "Zzz" [none] = .error "IndexError: list index out of range" := rfl

/-- C3 (amended): `verify_drug_data` returns `verified=false` exactly on the
empty input list; for every list containing at least one non-None record it
returns `verified=true` with a merged record; but a non-empty list whose
entries are all None raises IndexError instead of returning. -/
theorem verify_total_amended (name : String) (l : List (Option NormalizedDrugData)) :
    (l = [] → ∃ r, verifyDrugData name l = .ok r ∧ r.verified = false ∧
      r.merged_data = none) ∧
    ((∃ d, some d ∈ l) → ∃ r, verifyDrugData name l = .ok r ∧ r.verified = true ∧
      r.merged_data ≠ none) ∧
    (l ≠ [] → (∀ x ∈ l, x = none) →
      verifyDrugData name l = .error "IndexError: list index out of range") := by
  refine ⟨?_, ?_, ?_⟩
  · rintro rfl
    exact ⟨_, by unfold verifyDrugData; rw [if_pos rfl], rfl, rfl⟩
  · rintro ⟨d, hd⟩
    have hne : l ≠ [] := by
      rintro rfl
      simp at hd
    have hfm : l.filterMap id ≠ [] := by
      intro hnil
      rw [List.filterMap_eq_nil_iff] at hnil
      exact Option.some_ne_none d (hnil (some d) hd)
    cases hfm2 : l.filterMap id with
    | nil => exact absurd hfm2 hfm
    | cons d0 rest =>
      exact ⟨verifySuccessResult name d0 rest, verify_ok_of_cons name l d0 rest hne hfm2,
        rfl, by simp [verifySuccessResult]⟩
  · intro hne hall
    have hfm : l.filterMap id = [] :=
      List.filterMap_eq_nil_iff.mpr (fun a ha => by rw [hall a ha]; rfl)
    unfold verifyDrugData
    rw [if_neg hne, hfm]

/-- C3 witness: a singleton non-None input is verified with a merged record. -/
theorem verify_total_amended_witness :
    ∃ r, verifyDrugData "Wit3" [some wSparse] = .ok r ∧ r.verified = true ∧
      r.merged_data ≠ none :=
  (verify_total_amended "Wit3" [some wSparse]).2.1 ⟨wSparse, by simp⟩

/-! ### C4: the confidence formula -/

/-- C4: for every input on which `verify_drug_data` returns a result
(non-empty list), the returned confidence equals the clamp to [0,1] of
`min(sourceCount/4, 0.35)` plus 0.08 for each of mechanism, indications,
contraindications, adult dosage, and black-box-or-contraindications present
in the merged record, plus 0.08 for a real unit price, plus 0.07 for an
adverse-event count, minus 0.05 per detected conflict. -/
theorem verify_confidence_formula (name : String) (l : List (Option NormalizedDrugData))
    (r : VerificationResult) (hok : verifyDrugData name l = .ok r) (hne : l ≠ []) :
    ∃ m, r.merged_data = some m ∧
      r.confidence = max 0 (min 1 (
        min ((r.sources_used.length : ℚ) / 4) (35 / 100) +
        ((if m.mechanism_of_action ≠ "" then 8 / 100 else 0) +
         (if m.indications ≠ [] then 8 / 100 else 0) +
         (if m.contraindications ≠ "" then 8 / 100 else 0) +
         (if m.adult_dosage ≠ "" then 8 / 100 else 0) +
         (if m.black_box_warnings ≠ "" ∨ m.contraindications ≠ "" then 8 / 100 else 0) +
         (if m.nadac_per_unit.isSome then 8 / 100 else 0) +
         (if m.adverse_event_count.isSome then 7 / 100 else 0)) -
        (r.conflicts.length : ℚ) * (5 / 100))) := by
  rcases verify_ok_cases name l r hok with ⟨hl, _⟩ | ⟨d0, rest, hfm, hr⟩
  · exact absurd hl hne
  · subst hr
    refine ⟨verifyMerged name d0 rest, rfl, ?_⟩
    have hconf : (verifySuccessResult name d0 rest).confidence =
        pyRound3 (max 0 (min 1 (confidenceRaw (rest.length + 1)
          (verifyMerged name d0 rest) (verifyConflicts (d0 :: rest))))) := rfl
    have hsrc : (verifySuccessResult name d0 rest).sources_used.length = rest.length + 1 := by
      show ((d0 :: rest).map (·.source_authority)).length = rest.length + 1
      simp
    have hcon : (verifySuccessResult name d0 rest).conflicts = verifyConflicts (d0 :: rest) := rfl
    rw [hconf, hsrc, hcon]
    rw [pyRound3_clamp _ (confidenceRaw_hundredth _ _ _)]
    refine congrArg (fun x => max 0 (min 1 x)) ?_
    unfold confidenceRaw fieldBonuses
    push_cast
    ring

/-- C4 witness at a concrete two-source input. -/
theorem verify_confidence_formula_witness :
    ∃ m, (verifySuccessResult "Aspirin" wFda [wNih]).merged_data = some m ∧
      (verifySuccessResult "Aspirin" wFda [wNih]).confidence = max 0 (min 1 (
        min (((verifySuccessResult "Aspirin" wFda [wNih]).sources_used.length : ℚ) / 4) (35 / 100) +
        ((if m.mechanism_of_action ≠ "" then 8 / 100 else 0) +
         (if m.indications ≠ [] then 8 / 100 else 0) +
         (if m.contraindications ≠ "" then 8 / 100 else 0) +
         (if m.adult_dosage ≠ "" then 8 / 100 else 0) +
         (if m.black_box_warnings ≠ "" ∨ m.contraindications ≠ "" then 8 / 100 else 0) +
         (if m.nadac_per_unit.isSome then 8 / 100 else 0) +
         (if m.adverse_event_count.isSome then 7 / 100 else 0)) -
        (((verifySuccessResult "Aspirin" wFda [wNih]).conflicts.length : ℚ)) * (5 / 100))) :=
  verify_confidence_formula "Aspirin" [some wFda, some wNih] _ rfl (by simp)

/-! ### C10: the confidence never exceeds 0.9 -/

/-- C10: every confidence returned by `verify_drug_data` is at most 0.9 —
the corroboration base is capped at 0.35, the bonuses total at most 0.55,
and conflicts only subtract, so the upper clamp at 1 is unreachable. -/
theorem verify_confidence_le (name : String) (l : List (Option NormalizedDrugData))
    (r : VerificationResult) (hok : verifyDrugData name l = .ok r) :
    r.confidence ≤ 9 / 10 := by
  rcases verify_ok_cases name l r hok with ⟨_, hr⟩ | ⟨d0, rest, _, hr⟩
  · subst hr
    norm_num
  · subst hr
    have hconf : (verifySuccessResult name d0 rest).confidence =
        pyRound3 (max 0 (min 1 (confidenceRaw (rest.length + 1)
          (verifyMerged name d0 rest) (verifyConflicts (d0 :: rest))))) := rfl
    rw [hconf]
    apply pyRound3_le_nine_tenths
    have hraw := confidenceRaw_le (rest.length + 1) (verifyMerged name d0 rest)
      (verifyConflicts (d0 :: rest))
    have hmin : min (1 : ℚ) (confidenceRaw (rest.length + 1)
        (verifyMerged name d0 rest) (verifyConflicts (d0 :: rest))) ≤ 9 / 10 :=
      le_trans (min_le_right _ _) hraw
    exact max_le (by norm_num) hmin

/-- C10 witness at a concrete input. -/
theorem verify_confidence_le_witness :
    (verifySuccessResult "Aspirin" wFda [wNih]).confidence ≤ 9 / 10 :=
  verify_confidence_le "Aspirin" [some wFda, some wNih] _ rfl

/-! ### C5: a single non-authoritative source -/

/-- On a single-record input the confidence is exactly `0.25` plus the field
bonuses of the merged record (no conflict is possible, the clamp and the
3-decimal rounding are the identity there). -/
theorem verify_single_confidence_eq (name : String) (d : NormalizedDrugData) :
    (verifySuccessResult name d []).confidence =
      1 / 4 + fieldBonuses (verifyMerged name d []) := by
  have hb := fieldBonuses_bounds (verifyMerged name d [])
  show pyRound3 (max 0 (min 1 (confidenceRaw 1 (verifyMerged name d [])
    (verifyConflicts [d])))) = 1 / 4 + fieldBonuses (verifyMerged name d [])
  rw [verifyConflicts_singleton]
  have hraw : confidenceRaw 1 (verifyMerged name d []) [] =
      1 / 4 + fieldBonuses (verifyMerged name d []) := by
    unfold confidenceRaw
    have hmin : min ((1 : ℚ) / 4) (35 / 100) = 1 / 4 := by norm_num
    simp only [List.length_nil, Nat.cast_zero, Nat.cast_one, hmin]
    ring
  rw [hraw]
  have hclamp : max 0 (min 1 (1 / 4 + fieldBonuses (verifyMerged name d []))) =
      1 / 4 + fieldBonuses (verifyMerged name d []) := by
    rw [min_eq_right (by linarith), max_eq_right (by linarith)]
  rw [hclamp]
  obtain ⟨ib, hib⟩ := fieldBonuses_hundredth (verifyMerged name d [])
  rw [hib]
  have h100 : (1 : ℚ) / 4 + (ib : ℚ) / 100 = ((25 + ib : ℤ) : ℚ) / 100 := by
    push_cast
    ring
  rw [h100, pyRound3_hundredth, ← h100]

/-- C5 counterexample: a fully populated single CMS record is accepted with
confidence 0.65, refuting the claimed strict `< 0.5` bound for every single
non-authoritative source. -/
theorem verify_single_nonauth_high_confidence :
    cexSingleRich.source_authority ≠ "FDA" ∧ cexSingleRich.source_authority ≠ "NIH/NLM" ∧
    ∃ r, verifyDrugData "Zzz" [some cexSingleRich] = .ok r ∧ r.verified = true ∧
      r.confidence = 13 / 20 ∧ ¬ (r.confidence < 1 / 2) := by
  have hfb : fieldBonuses (verifyMerged "Zzz" cexSingleRich []) = 2 / 5 := by
    have h1 : (verifyMerged "Zzz" cexSingleRich []).mechanism_of_action ≠ "" := by decide
    have h2 : (verifyMerged "Zzz" cexSingleRich []).indications ≠ [] := by decide
    have h3 : (verifyMerged "Zzz" cexSingleRich []).contraindications ≠ "" := by decide
    have h4 : (verifyMerged "Zzz" cexSingleRich []).adult_dosage ≠ "" := by decide
    have h6 : (verifyMerged "Zzz" cexSingleRich []).nadac_per_unit.isSome = false := by decide
    have h7 : (verifyMerged "Zzz" cexSingleRich []).adverse_event_count.isSome = false := by decide
    unfold fieldBonuses
    rw [if_pos h1, if_pos h2, if_pos h3, if_pos h4, if_pos (Or.inr h3),
      if_neg (by simp [h6]), if_neg (by simp [h7])]
    norm_num
  refine ⟨by decide, by decide, verifySuccessResult "Zzz" cexSingleRich [], rfl, rfl, ?_, ?_⟩
  · rw [verify_single_confidence_eq, hfb]
    norm_num
  · rw [verify_single_confidence_eq, hfb]
    norm_num

/-- C5 (amended): a single non-authoritative source is still verified and
noted, and its confidence equals `0.25 + field bonuses` of the merged record
— between 0.25 and 0.80, and below 0.5 only when the bonuses total less than
0.25 (not for every such input, as the original claim stated). -/
theorem verify_single_nonauthoritative (name : String) (d : NormalizedDrugData)
    (h1 : d.source_authority ≠ "FDA") (h2 : d.source_authority ≠ "NIH/NLM") :
    ∃ r m, verifyDrugData name [some d] = .ok r ∧ r.verified = true ∧
      ("Single non-authoritative source (" ++ d.source_authority ++
        "); accepting with low confidence.") ∈ r.notes ∧
      r.merged_data = some m ∧
      r.confidence = 1 / 4 + fieldBonuses m ∧
      1 / 4 ≤ r.confidence ∧ r.confidence ≤ 4 / 5 := by
  have hb := fieldBonuses_bounds (verifyMerged name d [])
  have hcval := verify_single_confidence_eq name d
  have hnote : ("Single non-authoritative source (" ++ d.source_authority ++
      "); accepting with low confidence.") ∈ verifyMinSourceNotes name [d] := by
    unfold verifyMinSourceNotes
    rw [if_pos (show ([d] : List NormalizedDrugData).length < MIN_SOURCES_REQUIRED by
      simp [MIN_SOURCES_REQUIRED])]
    show _ ∈ _ ++ [if d.source_authority = "FDA" ∨ d.source_authority = "NIH/NLM" then
      "Single " ++ d.source_authority ++ " source accepted as authoritative."
    else
      "Single non-authoritative source (" ++ d.source_authority ++
        "); accepting with low confidence."]
    rw [if_neg (show ¬ (d.source_authority = "FDA" ∨ d.source_authority = "NIH/NLM") by
      rintro (h | h)
      · exact h1 h
      · exact h2 h)]
    simp
  refine ⟨verifySuccessResult name d [], verifyMerged name d [], rfl, rfl, ?_, rfl, hcval, ?_, ?_⟩
  · show _ ∈ verifyMinSourceNotes name [d] ++ [_]
    exact List.mem_append_left _ hnote
  · rw [hcval]
    linarith [hb.1]
  · rw [hcval]
    linarith [hb.2]

/-- C5 witness: a sparse single non-authoritative source. -/
theorem verify_single_nonauthoritative_witness :
    ∃ r m, verifyDrugData "Wdrug" [some wSparse] = .ok r ∧ r.verified = true ∧
      ("Single non-authoritative source (" ++ wSparse.source_authority ++
        "); accepting with low confidence.") ∈ r.notes ∧
      r.merged_data = some m ∧
      r.confidence = 1 / 4 + fieldBonuses m ∧
      1 / 4 ≤ r.confidence ∧ r.confidence ≤ 4 / 5 :=
  verify_single_nonauthoritative "Wdrug" wSparse (by decide) (by decide)

/-! ### C1: merge (non-)determinism under permutation -/

/-- C1 counterexample: permuting two normalized source records changes the
merged record — brand names are unioned in first-seen order, so the merged
data of the two permutations is not identical (here `["Alpha","Beta"]`
versus `["Beta","Alpha"]`). -/
theorem verify_not_permutation_invariant :
    ([some cexBrandNIH, some cexBrandFDA] : List (Option NormalizedDrugData)).Perm
      [some cexBrandFDA, some cexBrandNIH] ∧
    (verifyDrugData "Drugx" [some cexBrandFDA, some cexBrandNIH]).toOption.bind
      (·.merged_data) ≠
    (verifyDrugData "Drugx" [some cexBrandNIH, some cexBrandFDA]).toOption.bind
      (·.merged_data) := by
  constructor
  · decide
  · intro h
    have hb := congrArg (fun x => (x.map (·.brand_names)).getD []) h
    simp only [Option.map, Option.getD] at hb
    exact absurd hb (by decide)

/-- C1 (amended): `verify_drug_data` is a function of the ordered input list;
under permutation only the success/failure of the call, the `verified` flag,
and the multiset (hence the count) of `sources_used` are invariant.  The
merged record itself is order-sensitive (first-seen union order, longest-text
tie-breaks, first-match pricing/provenance picks), so byte-identical
`mergedData` across permutations does not hold. -/
theorem verify_perm_invariants (name : String)
    (l1 l2 : List (Option NormalizedDrugData)) (hperm : l1.Perm l2) :
    ((verifyDrugData name l1).toOption.isSome ↔
      (verifyDrugData name l2).toOption.isSome) ∧
    ∀ r1 r2, verifyDrugData name l1 = .ok r1 → verifyDrugData name l2 = .ok r2 →
      r1.verified = r2.verified ∧ r1.sources_used.Perm r2.sources_used ∧
      r1.sources_used.length = r2.sources_used.length := by
  by_cases h1 : l1 = []
  · have h2 : l2 = [] := by
      subst h1
      exact hperm.symm.eq_nil
    subst h1
    subst h2
    constructor
    · exact Iff.rfl
    · intro r1 r2 hr1 hr2
      rw [hr1] at hr2
      simp only [Except.ok.injEq] at hr2
      subst hr2
      exact ⟨rfl, List.Perm.refl _, rfl⟩
  · have h2 : l2 ≠ [] := by
      intro h
      apply h1
      rw [h] at hperm
      exact hperm.eq_nil
    have hfm := hperm.filterMap id
    cases hc1 : l1.filterMap id with
    | nil =>
      have hc2 : l2.filterMap id = [] := by
        rw [hc1] at hfm
        exact hfm.symm.eq_nil
      have e1 : verifyDrugData name l1 = .error "IndexError: list index out of range" := by
        unfold verifyDrugData
        rw [if_neg h1, hc1]
      have e2 : verifyDrugData name l2 = .error "IndexError: list index out of range" := by
        unfold verifyDrugData
        rw [if_neg h2, hc2]
      constructor
      · rw [e1, e2]
      · intro r1 r2 hr1 _
        rw [e1] at hr1
        simp at hr1
    | cons d0 rest =>
      rw [hc1] at hfm
      cases hc2 : l2.filterMap id with
      | nil =>
        exfalso
        rw [hc2] at hfm
        exact List.cons_ne_nil d0 rest hfm.eq_nil
      | cons e0 rest2 =>
        rw [hc2] at hfm
        have o1 := verify_ok_of_cons name l1 d0 rest h1 hc1
        have o2 := verify_ok_of_cons name l2 e0 rest2 h2 hc2
        constructor
        · rw [o1, o2]
          simp [Except.toOption]
        · intro r1 r2 hr1 hr2
          rw [o1] at hr1
          rw [o2] at hr2
          simp only [Except.ok.injEq] at hr1 hr2
          subst hr1
          subst hr2
          refine ⟨rfl, ?_, ?_⟩
          · exact hfm.map (·.source_authority)
          · exact (hfm.map (·.source_authority)).length_eq

/-- C1 witness: the invariants at a concrete two-record permutation. -/
theorem verify_perm_invariants_witness :
    ((verifyDrugData "Drugx" [some cexBrandFDA, some cexBrandNIH]).toOption.isSome ↔
      (verifyDrugData "Drugx" [some cexBrandNIH, some cexBrandFDA]).toOption.isSome) ∧
    ∀ r1 r2, verifyDrugData "Drugx" [some cexBrandFDA, some cexBrandNIH] = .ok r1 →
      verifyDrugData "Drugx" [some cexBrandNIH, some cexBrandFDA] = .ok r2 →
      r1.verified = r2.verified ∧ r1.sources_used.Perm r2.sources_used ∧
      r1.sources_used.length = r2.sources_used.length :=
  verify_perm_invariants "Drugx" _ _ (by decide)

/-! ### C6: interaction union-merge with severity precedence -/

theorem lookup_none_iff {β : Type} (k : String) (m : List (String × β)) :
    List.lookup k m = none ↔ ∀ p ∈ m, p.1 ≠ k := by
  induction m with
  | nil => simp [List.lookup]
  | cons a es ih =>
    simp only [List.lookup, List.mem_cons]
    by_cases h : k = a.1
    · subst h
      simp only [beq_self_eq_true]
      constructor
      · intro hfalse
        simp at hfalse
      · intro hall
        exact absurd rfl (hall a (Or.inl rfl))
    · have hb : (k == a.1) = false := beq_eq_false_iff_ne.mpr h
      simp only [hb]
      rw [ih]
      constructor
      · intro hall p hp
        rcases hp with rfl | hp
        · exact fun he => h he.symm
        · exact hall p hp
      · intro hall p hp
        exact hall p (Or.inr hp)

theorem replace_map_fst (m : List (String × Interaction)) (k : String) (v : Interaction) :
    ((m.map (fun p => if p.1 = k then (k, v) else p)).map Prod.fst) = m.map Prod.fst := by
  rw [List.map_map]
  apply List.map_congr_left
  intro p _
  by_cases h : p.1 = k
  · simp [h]
  · simp [h]

theorem mergeStep_inv (m : List (String × Interaction)) (ix : Interaction)
    (P : Interaction → Prop)
    (hkeys : (m.map Prod.fst).Nodup)
    (hcons : ∀ p ∈ m, p.1 = interactionKey p.2)
    (hval : ∀ p ∈ m, P p.2) (hP : P ix) :
    ((mergeInteractionsStep m ix).map Prod.fst).Nodup ∧
    (∀ p ∈ mergeInteractionsStep m ix, p.1 = interactionKey p.2) ∧
    (∀ p ∈ mergeInteractionsStep m ix, P p.2) := by
  have hrep : ∀ v : Interaction, v = ix →
      ((m.map (fun p => if p.1 = interactionKey ix then (interactionKey ix, v) else p)).map
        Prod.fst).Nodup ∧
      (∀ p ∈ m.map (fun p => if p.1 = interactionKey ix then (interactionKey ix, v) else p),
        p.1 = interactionKey p.2) ∧
      (∀ p ∈ m.map (fun p => if p.1 = interactionKey ix then (interactionKey ix, v) else p),
        P p.2) := by
    rintro v rfl
    refine ⟨by rw [replace_map_fst]; exact hkeys, ?_, ?_⟩
    · intro p hp
      obtain ⟨q, hq, hqe⟩ := List.mem_map.mp hp
      by_cases h : q.1 = interactionKey v
      · rw [if_pos h] at hqe
        rw [← hqe]
      · rw [if_neg h] at hqe
        rw [← hqe]
        exact hcons q hq
    · intro p hp
      obtain ⟨q, hq, hqe⟩ := List.mem_map.mp hp
      by_cases h : q.1 = interactionKey v
      · rw [if_pos h] at hqe
        rw [← hqe]
        exact hP
      · rw [if_neg h] at hqe
        rw [← hqe]
        exact hval q hq
  unfold mergeInteractionsStep
  by_cases hk : interactionKey ix = ""
  · rw [if_pos hk]
    exact ⟨hkeys, hcons, hval⟩
  · rw [if_neg hk]
    split
    next existing hl =>
      dsimp only
      by_cases h1 : severityRank ix.severity > severityRank existing.severity
      · rw [if_pos h1]
        exact hrep ix rfl
      · rw [if_neg h1]
        by_cases h2 : severityRank ix.severity = severityRank existing.severity ∧
            ix.description.length > existing.description.length
        · rw [if_pos h2]
          exact hrep ix rfl
        · rw [if_neg h2]
          exact ⟨hkeys, hcons, hval⟩
    next hl =>
      have hkm : interactionKey ix ∉ m.map Prod.fst := by
        intro hmem
        obtain ⟨p, hp, hpe⟩ := List.mem_map.mp hmem
        exact (lookup_none_iff _ m).mp hl p hp hpe
      refine ⟨?_, ?_, ?_⟩
      · rw [List.map_append]
        simp only [List.map_cons, List.map_nil]
        rw [List.nodup_append]
        exact ⟨hkeys, List.nodup_singleton _, by
          intro x hx hy
          simp only [List.mem_singleton] at hy
          exact hkm (hy ▸ hx)⟩
      · intro p hp
        rcases List.mem_append.mp hp with hp | hp
        · exact hcons p hp
        · simp only [List.mem_singleton] at hp
          rw [hp]
      · intro p hp
        rcases List.mem_append.mp hp with hp | hp
        · exact hval p hp
        · simp only [List.mem_singleton] at hp
          rw [hp]
          exact hP

theorem mergeFold_inner (lst : List Interaction) (m : List (String × Interaction))
    (P : Interaction → Prop)
    (hkeys : (m.map Prod.fst).Nodup)
    (hcons : ∀ p ∈ m, p.1 = interactionKey p.2)
    (hval : ∀ p ∈ m, P p.2) (hlst : ∀ ix ∈ lst, P ix) :
    ((lst.foldl mergeInteractionsStep m).map Prod.fst).Nodup ∧
    (∀ p ∈ lst.foldl mergeInteractionsStep m, p.1 = interactionKey p.2) ∧
    (∀ p ∈ lst.foldl mergeInteractionsStep m, P p.2) := by
  induction lst generalizing m with
  | nil => exact ⟨hkeys, hcons, hval⟩
  | cons ix rest ih =>
    have hstep := mergeStep_inv m ix P hkeys hcons hval (hlst ix (by simp))
    exact ih (mergeInteractionsStep m ix) hstep.1 hstep.2.1 hstep.2.2
      (fun j hj => hlst j (by simp [hj]))

theorem mergeFold_outer (lists : List (List Interaction)) (m : List (String × Interaction))
    (P : Interaction → Prop)
    (hkeys : (m.map Prod.fst).Nodup)
    (hcons : ∀ p ∈ m, p.1 = interactionKey p.2)
    (hval : ∀ p ∈ m, P p.2)
    (hlists : ∀ l ∈ lists, ∀ ix ∈ l, P ix) :
    (((lists.foldl (fun acc l => l.foldl mergeInteractionsStep acc) m).map Prod.fst).Nodup) ∧
    (∀ p ∈ lists.foldl (fun acc l => l.foldl mergeInteractionsStep acc) m,
      p.1 = interactionKey p.2) ∧
    (∀ p ∈ lists.foldl (fun acc l => l.foldl mergeInteractionsStep acc) m, P p.2) := by
  induction lists generalizing m with
  | nil => exact ⟨hkeys, hcons, hval⟩
  | cons l ls ih =>
    have hstep := mergeFold_inner l m P hkeys hcons hval (hlists l (by simp))
    exact ih (l.foldl mergeInteractionsStep m) hstep.1 hstep.2.1 hstep.2.2
      (fun j hj ix hix => hlists j (by simp [hj]) ix hix)

/-- C6: `_merge_interactions` keys entries by the lower-cased trimmed
interacting-drug name — the output carries pairwise distinct keys and only
entries drawn from the inputs — and on a two-entry key collision keeps the
strictly higher severity rank, breaking equal ranks by the strictly longer
description (the earlier entry when the descriptions tie). -/
theorem merge_interactions_severity :
    (∀ lists : List (List Interaction),
      ((mergeInteractions lists).map interactionKey).Nodup ∧
      ∀ ix ∈ mergeInteractions lists, ∃ l ∈ lists, ix ∈ l) ∧
    (∀ a b : Interaction, interactionKey a ≠ "" → interactionKey b = interactionKey a →
      mergeInteractions [[a], [b]] =
        [if severityRank b.severity > severityRank a.severity then b
         else if severityRank b.severity = severityRank a.severity ∧
             b.description.length > a.description.length then b
         else a]) := by
  constructor
  · intro lists
    have hinv := mergeFold_outer lists [] (fun ix => ∃ l ∈ lists, ix ∈ l)
      (by simp) (by simp) (by simp) (fun l hl ix hix => ⟨l, hl, hix⟩)
    constructor
    · unfold mergeInteractions
      rw [List.map_map]
      have : (lists.foldl (fun acc l => l.foldl mergeInteractionsStep acc) []).map
          (interactionKey ∘ (·.2)) =
          (lists.foldl (fun acc l => l.foldl mergeInteractionsStep acc) []).map Prod.fst := by
        apply List.map_congr_left
        intro p hp
        exact (hinv.2.1 p hp).symm
      rw [this]
      exact hinv.1
    · intro ix hix
      obtain ⟨p, hp, hpe⟩ := List.mem_map.mp hix
      exact hpe ▸ hinv.2.2 p hp
  · intro a b hka hkb
    have hm1 : mergeInteractionsStep [] a = [(interactionKey a, a)] := by
      unfold mergeInteractionsStep
      rw [if_neg hka]
      rfl
    have hkb' : interactionKey b ≠ "" := by
      rw [hkb]
      exact hka
    have hlook : List.lookup (interactionKey b) [(interactionKey a, a)] = some a := by
      rw [hkb]
      simp [List.lookup]
    have hm2 : mergeInteractionsStep [(interactionKey a, a)] b =
        [(interactionKey a,
          if severityRank b.severity > severityRank a.severity then b
          else if severityRank b.severity = severityRank a.severity ∧
              b.description.length > a.description.length then b
          else a)] := by
      unfold mergeInteractionsStep
      rw [if_neg hkb', hlook]
      dsimp only
      by_cases h1 : severityRank b.severity > severityRank a.severity
      · rw [if_pos h1, if_pos h1]
        simp [hkb]
      · rw [if_neg h1, if_neg h1]
        by_cases h2 : severityRank b.severity = severityRank a.severity ∧
            b.description.length > a.description.length
        · rw [if_pos h2, if_pos h2]
          simp [hkb]
        · rw [if_neg h2, if_neg h2]
    show (([[a], [b]].foldl (fun acc l => l.foldl mergeInteractionsStep acc) []).map (·.2)) = _
    simp only [List.foldl_cons, List.foldl_nil, hm1, hm2, List.map_cons, List.map_nil]

/-- C6 witness: `{drugx: moderate}` merged with `{drugx: major}` keeps the
major entry. -/
theorem merge_interactions_severity_witness :
    mergeInteractions [[ixModerate], [ixMajor]] = [ixMajor] := by
  have h := merge_interactions_severity.2 ixModerate ixMajor (by decide) (by decide)
  rw [h]
  decide

/-! ### C9: isolation of adapter failures in the fetch fan-out -/

/-- C9: `ingest_single_drug` depends on the settled adapter outcomes only
through the collected successes — a raising adapter (caught and logged) or a
`None`-returning adapter can be removed from the completion list without
changing the ingestion's result, store effects, verification or confidence. -/
theorem fetch_isolation :
    (∀ (db : DB) (name : String) (o1 o2 : List (String × FetchOutcome))
        (vec : Option (List ℚ)), collectResults o1 = collectResults o2 →
      ingestSingleDrug db name o1 vec = ingestSingleDrug db name o2 vec) ∧
    (∀ (db : DB) (name : String) (pre post : List (String × FetchOutcome))
        (nm err : String) (vec : Option (List ℚ)),
      ingestSingleDrug db name (pre ++ [(nm, Except.error err)] ++ post) vec =
        ingestSingleDrug db name (pre ++ post) vec) ∧
    (∀ (db : DB) (name : String) (pre post : List (String × FetchOutcome))
        (nm : String) (vec : Option (List ℚ)),
      ingestSingleDrug db name (pre ++ [(nm, Except.ok none)] ++ post) vec =
        ingestSingleDrug db name (pre ++ post) vec) := by
  have hA : ∀ (db : DB) (name : String) (o1 o2 : List (String × FetchOutcome))
      (vec : Option (List ℚ)), collectResults o1 = collectResults o2 →
      ingestSingleDrug db name o1 vec = ingestSingleDrug db name o2 vec := by
    intro db name o1 o2 vec h
    unfold ingestSingleDrug
    rw [h]
  refine ⟨hA, ?_, ?_⟩
  · intro db name pre post nm err vec
    apply hA
    unfold collectResults
    rw [List.filterMap_append, List.filterMap_append, List.filterMap_append]
    simp
  · intro db name pre post nm vec
    apply hA
    unfold collectResults
    rw [List.filterMap_append, List.filterMap_append, List.filterMap_append]
    simp

/-- C9 witness: a timed-out adapter alongside a succeeding one produces the
same ingestion as the succeeding adapter alone. -/
theorem fetch_isolation_witness :
    ingestSingleDrug w8db "Lisinopril"
      [("OpenFDA", Except.error "timeout"), ("DailyMed", Except.ok (some wNih))] none =
    ingestSingleDrug w8db "Lisinopril" [("DailyMed", Except.ok (some wNih))] none :=
  fetch_isolation.1 w8db "Lisinopril" _ _ none (by decide)

/-! ### C2: the multi-authority insert path always fails -/

/-- C2: whenever `sources_used` names an authority different from the merged
record's `source_authority`, `_insert_verified_drug` hits the missing
`all_source_urls` attribute (AttributeError), the transaction is rolled back
leaving the store unchanged and `None` is returned; consequently such an
ingestion attempt terminates with status `insert_failed` and writes no drug,
source, child row or embedding (only the audit-log row is appended). -/
theorem multi_authority_insert_fails :
    (∀ (db : DB) (data : NormalizedDrugData) (ver : VerificationResult),
      (∃ s ∈ ver.sources_used, s ≠ data.source_authority) →
      insertVerifiedDrugBody db data ver =
        .error "AttributeError: VerificationResult has no attribute all_source_urls" ∧
      insertVerifiedDrug db data ver = (none, db)) ∧
    (∀ (db : DB) (name : String) (outcomes : List (String × FetchOutcome))
        (vec : Option (List ℚ)) (v : VerificationResult) (md : NormalizedDrugData),
      drugExists db (pyTitle (pyStrip name)) = false →
      collectResults outcomes ≠ [] →
      verifyDrugData (pyTitle (pyStrip name)) ((collectResults outcomes).map some) = .ok v →
      v.verified = true →
      v.merged_data = some md →
      (∃ s ∈ v.sources_used, s ≠ md.source_authority) →
      ∃ r db1, ingestSingleDrug db name outcomes vec = .ok (r, db1) ∧
        r.status = "insert_failed" ∧
        db1.drugs = db.drugs ∧ db1.sources = db.sources ∧
        db1.indications = db.indications ∧ db1.dosage_guidelines = db.dosage_guidelines ∧
        db1.safety_warnings = db.safety_warnings ∧
        db1.drug_interactions = db.drug_interactions ∧
        db1.pricing = db.pricing ∧ db1.embeddings = db.embeddings) := by
  have hA : ∀ (db : DB) (data : NormalizedDrugData) (ver : VerificationResult),
      (∃ s ∈ ver.sources_used, s ≠ data.source_authority) →
      insertVerifiedDrugBody db data ver =
        .error "AttributeError: VerificationResult has no attribute all_source_urls" ∧
      insertVerifiedDrug db data ver = (none, db) := by
    intro db data ver hdiff
    obtain ⟨s, hs, hne⟩ := hdiff
    have hany : ver.sources_used.any (fun s => s ≠ data.source_authority) = true :=
      List.any_eq_true.mpr ⟨s, hs, by simp [hne]⟩
    have hbody : insertVerifiedDrugBody db data ver =
        .error "AttributeError: VerificationResult has no attribute all_source_urls" := by
      unfold insertVerifiedDrugBody
      rw [if_pos hany]
    refine ⟨hbody, ?_⟩
    unfold insertVerifiedDrug
    rw [hbody]
  refine ⟨hA, ?_⟩
  intro db name outcomes vec v md hex hsr hver hverd hmd hdiff
  have hins := (hA db md v hdiff).2
  have heq : ingestSingleDrug db name outcomes vec =
      .ok ({ drug := pyTitle (pyStrip name), status := "insert_failed",
             reason := "Database insert failed" },
        logIngestion db (pyTitle (pyStrip name)) "insertion" "failed" 0
          v.sources_used [] "Database insert failed") := by
    unfold ingestSingleDrug
    rw [if_neg (by rw [hex]; simp)]
    rw [if_neg hsr, hver]
    dsimp only
    rw [if_neg (by rw [hverd]; simp), hmd]
    dsimp only
    rw [hins]
  exact ⟨_, _, heq, rfl, rfl, rfl, rfl, rfl, rfl, rfl, rfl, rfl⟩

/-- C2 witness: an FDA-primary verification that also names NIH/NLM makes the
insert fail and roll back. -/
theorem multi_authority_insert_fails_witness :
    insertVerifiedDrugBody w8db wFda w2ver =
      .error "AttributeError: VerificationResult has no attribute all_source_urls" ∧
    insertVerifiedDrug w8db wFda w2ver = (none, w8db) :=
  multi_authority_insert_fails.1 w8db wFda w2ver ⟨"NIH/NLM", by decide, by decide⟩

/-! ### C7: idempotent ingestion -/

theorem getOrCreateSource_drugs (db : DB) (a t u : String) (y : Int) (e dr : String) :
    (getOrCreateSource db a t u y e dr).2.drugs = db.drugs := by
  unfold getOrCreateSource
  split <;> rfl

theorem getOrCreateSource_next_drug_id (db : DB) (a t u : String) (y : Int) (e dr : String) :
    (getOrCreateSource db a t u y e dr).2.next_drug_id = db.next_drug_id := by
  unfold getOrCreateSource
  split <;> rfl

theorem generateEmbeddingForDrug_drugs (db : DB) (d : DrugRow) (v : Option (List ℚ)) :
    (generateEmbeddingForDrug db d v).drugs = db.drugs := by
  unfold generateEmbeddingForDrug
  split
  · rfl
  · cases v <;> rfl

theorem logIngestion_drugs (db : DB) (n a s : String) (c : ℚ) (src cf : List String)
    (nt : String) : (logIngestion db n a s c src cf nt).drugs = db.drugs := rfl

/-- Inversion of a successful `_insert_verified_drug` transaction body: the
drug table gains exactly the new row, whose stored generic name is the
title-cased stripped input name, with the next autoincrement id. -/
theorem insertBody_ok (db : DB) (data : NormalizedDrugData) (ver : VerificationResult)
    (drug : DrugRow) (dbX : DB)
    (h : insertVerifiedDrugBody db data ver = .ok (drug, dbX)) :
    dbX.drugs = db.drugs ++ [drug] ∧
    drug.generic_name = pyTitle (pyStrip data.generic_name) ∧
    drug.id = db.next_drug_id ∧ dbX.next_drug_id = db.next_drug_id + 1 := by
  unfold insertVerifiedDrugBody at h
  by_cases hany : (ver.sources_used.any (fun s => s ≠ data.source_authority)) = true
  · rw [if_pos hany] at h
    simp at h
  · rw [if_neg hany] at h
    dsimp only at h
    split at h
    · -- NADAC pricing branch: two chained source creations
      simp only [Except.ok.injEq, Prod.mk.injEq] at h
      obtain ⟨hd, hdb⟩ := h
      subst hd
      subst hdb
      refine ⟨?_, rfl, ?_, ?_⟩
      · show (getOrCreateSource (getOrCreateSource db _ _ _ _ _ _).2 _ _ _ _ _ _).2.drugs ++ _ =
          db.drugs ++ _
        rw [getOrCreateSource_drugs, getOrCreateSource_drugs]
      · show (getOrCreateSource db _ _ _ _ _ _).2.next_drug_id = db.next_drug_id
        rw [getOrCreateSource_next_drug_id]
      · show (getOrCreateSource (getOrCreateSource db _ _ _ _ _ _).2 _ _ _ _ _ _).2.next_drug_id
          + 1 = db.next_drug_id + 1
        rw [getOrCreateSource_next_drug_id, getOrCreateSource_next_drug_id]
    · -- estimate pricing branch: one source creation
      simp only [Except.ok.injEq, Prod.mk.injEq] at h
      obtain ⟨hd, hdb⟩ := h
      subst hd
      subst hdb
      refine ⟨?_, rfl, ?_, ?_⟩
      · show (getOrCreateSource db _ _ _ _ _ _).2.drugs ++ _ = db.drugs ++ _
        rw [getOrCreateSource_drugs]
      · show (getOrCreateSource db _ _ _ _ _ _).2.next_drug_id = db.next_drug_id
        rw [getOrCreateSource_next_drug_id]
      · show (getOrCreateSource db _ _ _ _ _ _).2.next_drug_id + 1 = db.next_drug_id + 1
        rw [getOrCreateSource_next_drug_id]

/-- Inversion of an `ingested`-status run of `ingest_single_drug`: the name
was not in the store, and exactly one drug row was appended whose stored
generic name matches the case-insensitive existence probe. -/
theorem ingest_ok_ingested (db : DB) (name : String)
    (outcomes : List (String × FetchOutcome)) (vec : Option (List ℚ))
    (r1 : IngestResult) (db1 : DB)
    (h : ingestSingleDrug db name outcomes vec = .ok (r1, db1))
    (hst : r1.status = "ingested") :
    drugExists db (pyTitle (pyStrip name)) = false ∧
    ∃ drug, db1.drugs = db.drugs ++ [drug] ∧
      ilike drug.generic_name (pyStrip (pyTitle (pyStrip name))) = true := by
  unfold ingestSingleDrug at h
  by_cases hexb : drugExists db (pyTitle (pyStrip name)) = true
  · rw [if_pos hexb] at h
    simp only [Except.ok.injEq, Prod.mk.injEq] at h
    rw [← h.1] at hst
    simp at hst
  · have hexf : drugExists db (pyTitle (pyStrip name)) = false := by
      revert hexb
      cases drugExists db (pyTitle (pyStrip name)) <;> simp
    rw [if_neg hexb] at h
    by_cases hsr : collectResults outcomes = []
    · rw [if_pos hsr] at h
      simp only [Except.ok.injEq, Prod.mk.injEq] at h
      rw [← h.1] at hst
      simp at hst
    · rw [if_neg hsr] at h
      obtain ⟨d0, rest, hc⟩ : ∃ d0 rest, collectResults outcomes = d0 :: rest := by
        cases hcc : collectResults outcomes with
        | nil => exact absurd hcc hsr
        | cons a b => exact ⟨a, b, rfl⟩
      have hfm : ((collectResults outcomes).map some).filterMap id = d0 :: rest := by
        rw [List.filterMap_map]
        have : (id ∘ some : NormalizedDrugData → Option NormalizedDrugData) = some := rfl
        rw [this, List.filterMap_some, hc]
      have hver := verify_ok_of_cons (pyTitle (pyStrip name))
        ((collectResults outcomes).map some) d0 rest (by simp [hc]) hfm
      rw [hver] at h
      dsimp only at h
      rw [if_neg (show ¬ ((verifySuccessResult (pyTitle (pyStrip name)) d0 rest).verified = false)
        by simp [show (verifySuccessResult (pyTitle (pyStrip name)) d0 rest).verified = true
          from rfl])] at h
      rw [show (verifySuccessResult (pyTitle (pyStrip name)) d0 rest).merged_data =
        some (verifyMerged (pyTitle (pyStrip name)) d0 rest) from rfl] at h
      dsimp only at h
      cases hp : insertVerifiedDrug db (verifyMerged (pyTitle (pyStrip name)) d0 rest)
          (verifySuccessResult (pyTitle (pyStrip name)) d0 rest) with
      | mk o dbA =>
        rw [hp] at h
        cases o with
        | none =>
          dsimp only at h
          simp only [Except.ok.injEq, Prod.mk.injEq] at h
          rw [← h.1] at hst
          simp at hst
        | some drug =>
          dsimp only at h
          simp only [Except.ok.injEq, Prod.mk.injEq] at h
          obtain ⟨_, hdb1⟩ := h
          have hbody : insertVerifiedDrugBody db (verifyMerged (pyTitle (pyStrip name)) d0 rest)
              (verifySuccessResult (pyTitle (pyStrip name)) d0 rest) = .ok (drug, dbA) := by
            unfold insertVerifiedDrug at hp
            cases hb : insertVerifiedDrugBody db (verifyMerged (pyTitle (pyStrip name)) d0 rest)
                (verifySuccessResult (pyTitle (pyStrip name)) d0 rest) with
            | ok q =>
              rw [hb] at hp
              simp only [Prod.mk.injEq, Option.some.injEq] at hp
              exact congrArg Except.ok (Prod.ext hp.1 hp.2)
            | error e =>
              rw [hb] at hp
              simp at hp
          obtain ⟨hdrugs, hgen, _, _⟩ := insertBody_ok db _ _ drug dbA hbody
          refine ⟨hexf, drug, ?_, ?_⟩
          · rw [← hdb1, logIngestion_drugs, generateEmbeddingForDrug_drugs, hdrugs]
          · rw [hgen]
            have hmg : (verifyMerged (pyTitle (pyStrip name)) d0 rest).generic_name =
                pyTitle (pyTitle (pyStrip name)) := rfl
            rw [hmg]
            exact stored_name_matches (pyTitle (pyStrip name))

/-- C7: ingestion is idempotent — a generic name already stored (compared
case-insensitively after stripping) short-circuits to status `skipped`
without touching the store; consequently ingesting the same name twice
yields `ingested` then `skipped` and exactly one matching drug row. -/
theorem ingest_idempotent :
    (∀ (db : DB) (name : String) (outcomes : List (String × FetchOutcome))
        (vec : Option (List ℚ)), drugExists db (pyTitle (pyStrip name)) = true →
      ingestSingleDrug db name outcomes vec = .ok
        ({ drug := pyTitle (pyStrip name), status := "skipped",
           reason := "Already in database" }, db)) ∧
    (∀ (db : DB) (name : String) (o1 o2 : List (String × FetchOutcome))
        (v1 v2 : Option (List ℚ)) (r1 : IngestResult) (db1 : DB),
      ingestSingleDrug db name o1 v1 = .ok (r1, db1) → r1.status = "ingested" →
      ingestSingleDrug db1 name o2 v2 = .ok
        ({ drug := pyTitle (pyStrip name), status := "skipped",
           reason := "Already in database" }, db1) ∧
      (db1.drugs.filter (fun d =>
        ilike d.generic_name (pyStrip (pyTitle (pyStrip name))))).length = 1) := by
  have hskip : ∀ (db : DB) (name : String) (outcomes : List (String × FetchOutcome))
      (vec : Option (List ℚ)), drugExists db (pyTitle (pyStrip name)) = true →
      ingestSingleDrug db name outcomes vec = .ok
        ({ drug := pyTitle (pyStrip name), status := "skipped",
           reason := "Already in database" }, db) := by
    intro db name outcomes vec hex
    unfold ingestSingleDrug
    rw [if_pos hex]
  refine ⟨hskip, ?_⟩
  intro db name o1 o2 v1 v2 r1 db1 h1 hst
  obtain ⟨hexf, drug, hdrugs, hmatch⟩ := ingest_ok_ingested db name o1 v1 r1 db1 h1 hst
  have hnomatch : ∀ d ∈ db.drugs,
      ilike d.generic_name (pyStrip (pyTitle (pyStrip name))) = false := by
    intro d hd
    by_contra hcon
    have htrue : ilike d.generic_name (pyStrip (pyTitle (pyStrip name))) = true := by
      revert hcon
      cases ilike d.generic_name (pyStrip (pyTitle (pyStrip name))) <;> simp
    have : drugExists db (pyTitle (pyStrip name)) = true := by
      unfold drugExists
      exact List.any_eq_true.mpr ⟨d, hd, htrue⟩
    rw [this] at hexf
    simp at hexf
  have hex1 : drugExists db1 (pyTitle (pyStrip name)) = true := by
    unfold drugExists
    refine List.any_eq_true.mpr ⟨drug, ?_, hmatch⟩
    rw [hdrugs]
    simp
  refine ⟨hskip db1 name o2 v2 hex1, ?_⟩
  rw [hdrugs, List.filter_append]
  have hfilter0 : db.drugs.filter (fun d =>
      ilike d.generic_name (pyStrip (pyTitle (pyStrip name)))) = [] := by
    rw [List.filter_eq_nil_iff]
    intro d hd
    rw [hnomatch d hd]
    simp
  rw [hfilter0]
  simp [List.filter, hmatch]

/-- C7 witness: a concrete end-to-end double ingestion of "aspirin". -/
theorem ingest_idempotent_witness :
    ∃ r1 db1, ingestSingleDrug ({} : DB) "aspirin" wOutcomes none = .ok (r1, db1) ∧
      r1.status = "ingested" ∧
      ingestSingleDrug db1 "aspirin" wOutcomes none = .ok
        ({ drug := pyTitle (pyStrip "aspirin"), status := "skipped",
           reason := "Already in database" }, db1) ∧
      (db1.drugs.filter (fun d =>
        ilike d.generic_name (pyStrip (pyTitle (pyStrip "aspirin"))))).length = 1 := by
  refine ⟨_, _, rfl, rfl, ?_, ?_⟩
  · exact (ingest_idempotent.2 ({} : DB) "aspirin" wOutcomes wOutcomes none none _ _
      rfl rfl).1
  · exact (ingest_idempotent.2 ({} : DB) "aspirin" wOutcomes wOutcomes none none _ _
      rfl rfl).2

/-! ### C8: batch lookup — supporting lemmas -/

theorem logIngestion_next (db : DB) (n a s : String) (c : ℚ) (src cf : List String)
    (nt : String) : (logIngestion db n a s c src cf nt).next_drug_id = db.next_drug_id := rfl

theorem generateEmbeddingForDrug_next (db : DB) (d : DrugRow) (v : Option (List ℚ)) :
    (generateEmbeddingForDrug db d v).next_drug_id = db.next_drug_id := by
  unfold generateEmbeddingForDrug
  split
  · rfl
  · cases v <;> rfl

/-- A successful run of the orchestrator either leaves the drug table (and
the id cursor) unchanged, or appends exactly one row carrying the next id. -/
theorem ingest_drugs_shape (db : DB) (name : String)
    (outcomes : List (String × FetchOutcome)) (vec : Option (List ℚ))
    (r : IngestResult) (db' : DB)
    (h : ingestSingleDrug db name outcomes vec = .ok (r, db')) :
    (db'.drugs = db.drugs ∧ db'.next_drug_id = db.next_drug_id) ∨
    (∃ d, db'.drugs = db.drugs ++ [d] ∧ d.id = db.next_drug_id ∧
      db'.next_drug_id = db.next_drug_id + 1) := by
  unfold ingestSingleDrug at h
  by_cases hexb : drugExists db (pyTitle (pyStrip name)) = true
  · rw [if_pos hexb] at h
    simp only [Except.ok.injEq, Prod.mk.injEq] at h
    left
    rw [← h.2]
    exact ⟨rfl, rfl⟩
  · rw [if_neg hexb] at h
    by_cases hsr : collectResults outcomes = []
    · rw [if_pos hsr] at h
      simp only [Except.ok.injEq, Prod.mk.injEq] at h
      left
      rw [← h.2]
      exact ⟨rfl, rfl⟩
    · rw [if_neg hsr] at h
      obtain ⟨d0, rest, hc⟩ : ∃ d0 rest, collectResults outcomes = d0 :: rest := by
        cases hcc : collectResults outcomes with
        | nil => exact absurd hcc hsr
        | cons a b => exact ⟨a, b, rfl⟩
      have hfm : ((collectResults outcomes).map some).filterMap id = d0 :: rest := by
        rw [List.filterMap_map]
        have hcmp : (id ∘ some : NormalizedDrugData → Option NormalizedDrugData) = some := rfl
        rw [hcmp, List.filterMap_some, hc]
      have hver := verify_ok_of_cons (pyTitle (pyStrip name))
        ((collectResults outcomes).map some) d0 rest (by simp [hc]) hfm
      rw [hver] at h
      dsimp only at h
      rw [if_neg (show ¬ ((verifySuccessResult (pyTitle (pyStrip name)) d0 rest).verified = false)
        by simp [show (verifySuccessResult (pyTitle (pyStrip name)) d0 rest).verified = true
          from rfl])] at h
      rw [show (verifySuccessResult (pyTitle (pyStrip name)) d0 rest).merged_data =
        some (verifyMerged (pyTitle (pyStrip name)) d0 rest) from rfl] at h
      dsimp only at h
      cases hp : insertVerifiedDrug db (verifyMerged (pyTitle (pyStrip name)) d0 rest)
          (verifySuccessResult (pyTitle (pyStrip name)) d0 rest) with
      | mk o dbA =>
        rw [hp] at h
        cases o with
        | none =>
          dsimp only at h
          simp only [Except.ok.injEq, Prod.mk.injEq] at h
          left
          have hdbA : dbA = db := by
            unfold insertVerifiedDrug at hp
            cases hb : insertVerifiedDrugBody db (verifyMerged (pyTitle (pyStrip name)) d0 rest)
                (verifySuccessResult (pyTitle (pyStrip name)) d0 rest) with
            | ok q =>
              rw [hb] at hp
              simp at hp
            | error e =>
              rw [hb] at hp
              simp only [Prod.mk.injEq] at hp
              exact hp.2.symm
          rw [← h.2, hdbA]
          exact ⟨rfl, rfl⟩
        | some drug =>
          dsimp only at h
          simp only [Except.ok.injEq, Prod.mk.injEq] at h
          right
          have hbody : insertVerifiedDrugBody db (verifyMerged (pyTitle (pyStrip name)) d0 rest)
              (verifySuccessResult (pyTitle (pyStrip name)) d0 rest) = .ok (drug, dbA) := by
            unfold insertVerifiedDrug at hp
            cases hb : insertVerifiedDrugBody db (verifyMerged (pyTitle (pyStrip name)) d0 rest)
                (verifySuccessResult (pyTitle (pyStrip name)) d0 rest) with
            | ok q =>
              rw [hb] at hp
              simp only [Prod.mk.injEq, Option.some.injEq] at hp
              exact congrArg Except.ok (Prod.ext hp.1 hp.2)
            | error e =>
              rw [hb] at hp
              simp at hp
          obtain ⟨hdrugs, _, hid, hnext⟩ := insertBody_ok db _ _ drug dbA hbody
          refine ⟨drug, ?_, hid, ?_⟩
          · rw [← h.2, logIngestion_drugs, generateEmbeddingForDrug_drugs, hdrugs]
          · rw [← h.2, logIngestion_next, generateEmbeddingForDrug_next, hnext]

/-- The orchestrator only appends to the drug table and preserves the store
sanity invariant. -/
theorem ingest_store_extends (db : DB) (name : String)
    (outcomes : List (String × FetchOutcome)) (vec : Option (List ℚ))
    (r : IngestResult) (db' : DB)
    (h : ingestSingleDrug db name outcomes vec = .ok (r, db')) :
    (∃ t, db'.drugs = db.drugs ++ t) ∧ (DBok db → DBok db') := by
  rcases ingest_drugs_shape db name outcomes vec r db' h with ⟨h1, h2⟩ | ⟨d, h1, h2, h3⟩
  · refine ⟨⟨[], by simp [h1]⟩, ?_⟩
    intro hok
    unfold DBok at hok ⊢
    rw [h1, h2]
    exact hok
  · refine ⟨⟨[d], h1⟩, ?_⟩
    intro hok
    unfold DBok at hok ⊢
    constructor
    · rw [h1, List.map_append]
      simp only [List.map_cons, List.map_nil]
      rw [List.nodup_append]
      refine ⟨hok.1, List.nodup_singleton _, ?_⟩
      intro x hx hy
      simp only [List.mem_singleton] at hy
      obtain ⟨e, he, hei⟩ := List.mem_map.mp hx
      have := hok.2 e he
      omega
    · intro e he
      rw [h1] at he
      rcases List.mem_append.mp he with he | he
      · have := hok.2 e he
        omega
      · simp only [List.mem_singleton] at he
        rw [he, h2, h3]
        omega

/-- `_on_demand_ingest` only appends to the drug table, preserves the store
invariant, and any returned record is in the resulting store. -/
theorem onDemand_spec (db : DB) (name : String)
    (outcomes : List (String × FetchOutcome)) (vec : Option (List ℚ)) :
    (∃ t, (onDemandIngest db name outcomes vec).2.drugs = db.drugs ++ t) ∧
    (DBok db → DBok (onDemandIngest db name outcomes vec).2) ∧
    (∀ d, (onDemandIngest db name outcomes vec).1 = some d →
      d ∈ (onDemandIngest db name outcomes vec).2.drugs) := by
  unfold onDemandIngest
  cases hi : ingestSingleDrug db name outcomes vec with
  | error e =>
    exact ⟨⟨[], by simp⟩, fun hok => hok, fun d hd => by simp at hd⟩
  | ok p =>
    dsimp only
    obtain ⟨hext, hok⟩ := ingest_store_extends db name outcomes vec p.1 p.2 (by rw [hi])
    by_cases hs : p.1.status = "ingested" ∨ p.1.status = "skipped"
    · rw [if_pos hs]
      refine ⟨hext, hok, ?_⟩
      intro d hd
      exact List.mem_of_find?_eq_some hd
    · rw [if_neg hs]
      exact ⟨hext, hok, fun d hd => by simp at hd⟩

theorem lookup_some_mem {β : Type} (k : String) (m : List (String × β)) (v : β)
    (h : List.lookup k m = some v) : (k, v) ∈ m := by
  induction m with
  | nil => simp [List.lookup] at h
  | cons a es ih =>
    simp only [List.lookup] at h
    by_cases hk : k = a.1
    · subst hk
      rw [beq_self_eq_true] at h
      simp only [Option.some.injEq] at h
      rw [← h]
      exact List.mem_cons_self a es
    · rw [beq_eq_false_iff_ne.mpr hk] at h
      exact List.mem_cons_of_mem a (ih h)

theorem assocInsert_values (m : List (String × DrugRow)) (k : String) (v : DrugRow)
    (p : String × DrugRow) (hp : p ∈ assocInsert m k v) : p ∈ m ∨ p.2 = v := by
  unfold assocInsert at hp
  split at hp
  · obtain ⟨q, hq, hqe⟩ := List.mem_map.mp hp
    by_cases h : q.1 = k
    · rw [if_pos h] at hqe
      right
      rw [← hqe]
    · rw [if_neg h] at hqe
      left
      rw [← hqe]
      exact hq
  · rcases List.mem_append.mp hp with hp | hp
    · left
      exact hp
    · simp only [List.mem_singleton] at hp
      right
      rw [hp]

theorem resolveInStore_mem (db : DB) (name : String) (d : DrugRow)
    (h : resolveInStore db name = some d) : d ∈ db.drugs := by
  unfold resolveInStore at h
  split at h
  · next heq =>
    simp only [Option.some.injEq] at h
    rw [← h]
    exact List.mem_of_find?_eq_some heq
  · split at h
    · next heq =>
      simp only [Option.some.injEq] at h
      rw [← h]
      exact List.mem_of_find?_eq_some heq
    · exact List.mem_of_find?_eq_some h

theorem lookupPhase1_values (db : DB) (cl : List String) :
    ∀ p ∈ (lookupPhase1 db cl).1, p.2 ∈ db.drugs := by
  unfold lookupPhase1
  suffices hgen : ∀ (cl : List String) (st : List (String × DrugRow) × List String),
      (∀ p ∈ st.1, p.2 ∈ db.drugs) →
      ∀ p ∈ (cl.foldl (fun st name =>
        match resolveInStore db name with
        | some d => (assocInsert st.1 name d, st.2)
        | none => (st.1, st.2 ++ [name])) st).1, p.2 ∈ db.drugs by
    exact hgen cl ([], []) (by simp)
  intro cl
  induction cl with
  | nil => intro st hst; exact hst
  | cons n cl' ih =>
    intro st hst
    simp only [List.foldl_cons]
    cases hr : resolveInStore db n with
    | none => exact ih (st.1, st.2 ++ [n]) hst
    | some d =>
      refine ih (assocInsert st.1 n d, st.2) ?_
      intro p hp
      rcases assocInsert_values st.1 n d p hp with hp | hp
      · exact hst p hp
      · rw [hp]
        exact resolveInStore_mem db n d hr

theorem lookupPhase2_spec (fetchFor : String → List (String × FetchOutcome))
    (embedFor : String → Option (List ℚ)) (order : List String) :
    ∀ (m0 : List (String × DrugRow)) (db : DB),
    DBok db → (∀ p ∈ m0, p.2 ∈ db.drugs) →
    (∃ t, (lookupPhase2 m0 db fetchFor embedFor order).2.drugs = db.drugs ++ t) ∧
    DBok (lookupPhase2 m0 db fetchFor embedFor order).2 ∧
    (∀ p ∈ (lookupPhase2 m0 db fetchFor embedFor order).1,
      p.2 ∈ (lookupPhase2 m0 db fetchFor embedFor order).2.drugs) := by
  induction order with
  | nil =>
    intro m0 db hdb hm0
    exact ⟨⟨[], by simp [lookupPhase2]⟩, hdb, hm0⟩
  | cons n order' ih =>
    intro m0 db hdb hm0
    obtain ⟨⟨t1, hext⟩, hok, hmem⟩ := onDemand_spec db n (fetchFor n) (embedFor n)
    have hstep : lookupPhase2 m0 db fetchFor embedFor (n :: order') =
        lookupPhase2
          (match (onDemandIngest db n (fetchFor n) (embedFor n)).1 with
           | some d => assocInsert m0 n d
           | none => m0)
          (onDemandIngest db n (fetchFor n) (embedFor n)).2 fetchFor embedFor order' := by
      unfold lookupPhase2
      simp only [List.foldl_cons]
      cases (onDemandIngest db n (fetchFor n) (embedFor n)).1 <;> rfl
    rw [hstep]
    have hm0' : ∀ p ∈ (match (onDemandIngest db n (fetchFor n) (embedFor n)).1 with
        | some d => assocInsert m0 n d
        | none => m0), p.2 ∈ (onDemandIngest db n (fetchFor n) (embedFor n)).2.drugs := by
      cases hr : (onDemandIngest db n (fetchFor n) (embedFor n)).1 with
      | none =>
        intro p hp
        rw [hext]
        exact List.mem_append_left t1 (hm0 p hp)
      | some d =>
        intro p hp
        rcases assocInsert_values m0 n d p hp with hp | hp
        · rw [hext]
          exact List.mem_append_left t1 (hm0 p hp)
        · rw [hp]
          exact hmem d hr
    obtain ⟨⟨t2, hext2⟩, hok2, hmem2⟩ := ih _ _ (hok hdb) hm0'
    refine ⟨⟨t1 ++ t2, ?_⟩, hok2, hmem2⟩
    rw [hext2, hext, List.append_assoc]

theorem find_self_of_nodup (l : List DrugRow) (ids : List Nat) (d : DrugRow)
    (hmem : d ∈ l) (hid : d.id ∈ ids) (hnodup : (l.map (·.id)).Nodup) :
    l.find? (fun x => x.id = d.id ∧ d.id ∈ ids) = some d := by
  induction l with
  | nil => simp at hmem
  | cons x t ih =>
    rw [List.map_cons, List.nodup_cons] at hnodup
    rcases List.mem_cons.mp hmem with heq | hmem'
    · subst heq
      rw [List.find?_cons_of_pos]
      simp [hid]
    · have hx : x.id ≠ d.id := by
        intro hcon
        exact hnodup.1 (hcon ▸ List.mem_map.mpr ⟨d, hmem', rfl⟩)
      rw [List.find?_cons_of_neg]
      · exact ih hmem' hnodup.2
      · simp [hx]

theorem reload_self (db2 : DB) (ids : List Nat) (d : DrugRow) (hmem : d ∈ db2.drugs)
    (hid : d.id ∈ ids) (hnodup : (db2.drugs.map (·.id)).Nodup) :
    reloadById db2 ids d.id = some d := by
  unfold reloadById
  exact find_self_of_nodup db2.drugs ids d hmem hid hnodup

theorem lookupPhase3_fold (m : List (String × DrugRow)) (db2 : DB) (ids : List Nat)
    (hre : ∀ n d, List.lookup n m = some d → reloadById db2 ids d.id = some d) :
    ∀ (cl : List String) (f0 : List DrugRow) (nf0 : List String) (s0 : List Nat),
      cl.foldl (lookupPhase3Step m db2 ids) (f0, nf0, s0) =
        (f0 ++ (dedupByIdAux (cl.filterMap (fun n => List.lookup n m)) s0).1,
         nf0 ++ cl.filter (fun n => List.lookup n m = none),
         (dedupByIdAux (cl.filterMap (fun n => List.lookup n m)) s0).2) := by
  intro cl
  induction cl with
  | nil =>
    intro f0 nf0 s0
    simp [dedupByIdAux]
  | cons n cl' ih =>
    intro f0 nf0 s0
    simp only [List.foldl_cons, List.filterMap_cons, List.filter_cons]
    cases hn : List.lookup n m with
    | none =>
      have hstep : lookupPhase3Step m db2 ids (f0, nf0, s0) n = (f0, nf0 ++ [n], s0) := by
        unfold lookupPhase3Step
        rw [hn]
      rw [hstep, ih]
      simp
    | some d =>
      have hred := hre n d hn
      by_cases hs : d.id ∈ s0
      · have hstep : lookupPhase3Step m db2 ids (f0, nf0, s0) n = (f0, nf0, s0) := by
          unfold lookupPhase3Step
          rw [hn]
          dsimp only
          rw [hred]
          dsimp only
          rw [if_pos hs]
        rw [hstep, ih]
        have haux : dedupByIdAux (d :: cl'.filterMap (fun n => List.lookup n m)) s0 =
            dedupByIdAux (cl'.filterMap (fun n => List.lookup n m)) s0 := by
          conv_lhs => unfold dedupByIdAux
          rw [if_pos hs]
        simp [haux]
      · have hstep : lookupPhase3Step m db2 ids (f0, nf0, s0) n =
            (f0 ++ [d], nf0, s0 ++ [d.id]) := by
          unfold lookupPhase3Step
          rw [hn]
          dsimp only
          rw [hred]
          dsimp only
          rw [if_neg hs]
        rw [hstep, ih]
        have haux : dedupByIdAux (d :: cl'.filterMap (fun n => List.lookup n m)) s0 =
            (d :: (dedupByIdAux (cl'.filterMap (fun n => List.lookup n m)) (s0 ++ [d.id])).1,
             (dedupByIdAux (cl'.filterMap (fun n => List.lookup n m)) (s0 ++ [d.id])).2) := by
          conv_lhs => unfold dedupByIdAux
          rw [if_neg hs]
        simp [haux, List.append_assoc]

theorem dedupByIdAux_spec : ∀ (l : List DrugRow) (seen : List Nat),
    (((dedupByIdAux l seen).1.map (·.id)).Nodup) ∧
    (∀ d ∈ (dedupByIdAux l seen).1, d.id ∉ seen) := by
  intro l
  induction l with
  | nil =>
    intro seen
    simp [dedupByIdAux]
  | cons d t ih =>
    intro seen
    unfold dedupByIdAux
    by_cases hs : d.id ∈ seen
    · rw [if_pos hs]
      exact ih seen
    · rw [if_neg hs]
      dsimp only
      refine ⟨?_, ?_⟩
      · rw [List.map_cons, List.nodup_cons]
        refine ⟨?_, (ih (seen ++ [d.id])).1⟩
        intro hmem
        obtain ⟨e, he, hei⟩ := List.mem_map.mp hmem
        exact (ih (seen ++ [d.id])).2 e he (List.mem_append_right seen (by simp [hei]))
      · intro e he hse
        rcases List.mem_cons.mp he with heq | he'
        · rw [heq] at hse
          exact hs hse
        · exact (ih (seen ++ [d.id])).2 e he' (List.mem_append_left _ hse)

/-- C8: for every batch-lookup request the found records come back in the
caller's input order (independent of which names required ingestion and of
the fill phase's completion order), each not-found entry is an input name
trimmed of surrounding whitespace, and each distinct stored record appears
at most once even when two input strings resolve to it — formally the output
is the ordered id-deduplication of a per-name resolution applied to the
cleaned input names, with the unresolved names as the not-found list. -/
theorem batch_lookup_order (db : DB) (fetchFor : String → List (String × FetchOutcome))
    (embedFor : String → Option (List ℚ)) (order : List String) (names : List String)
    (hdb : DBok db) (horder : order.Perm (lookupMissing db names)) :
    (∀ m ∈ (lookupDrugs db fetchFor embedFor order names).2,
      ∃ n ∈ names, m = pyStrip n ∧ m ≠ "") ∧
    (((lookupDrugs db fetchFor embedFor order names).1.map (·.id)).Nodup) ∧
    ∃ resolve : String → Option DrugRow,
      (lookupDrugs db fetchFor embedFor order names).1 =
        dedupById (((names.map pyStrip).filter (· ≠ "")).filterMap resolve) ∧
      (lookupDrugs db fetchFor embedFor order names).2 =
        ((names.map pyStrip).filter (· ≠ "")).filter (fun n => resolve n = none) := by
  by_cases h0 : names = []
  · subst h0
    refine ⟨?_, ?_, fun _ => none, ?_, ?_⟩ <;> simp [lookupDrugs, dedupById, dedupByIdAux]
  · by_cases h1 : (names.map pyStrip).filter (· ≠ "") = []
    · have hlk : lookupDrugs db fetchFor embedFor order names = ([], []) := by
        unfold lookupDrugs
        rw [if_neg h0]
        dsimp only
        rw [if_pos h1]
      refine ⟨?_, ?_, fun _ => none, ?_, ?_⟩
      · intro m hm
        rw [hlk] at hm
        simp at hm
      · rw [hlk]
        simp
      · rw [hlk, h1]
        simp [dedupById, dedupByIdAux]
      · rw [hlk, h1]
        simp
    · have hvals0 := lookupPhase1_values db ((names.map pyStrip).filter (· ≠ ""))
      obtain ⟨⟨t, hext⟩, hok2, hvals⟩ := lookupPhase2_spec fetchFor embedFor order
        (lookupPhase1 db ((names.map pyStrip).filter (· ≠ ""))).1 db hdb hvals0
      set p2 := lookupPhase2 (lookupPhase1 db ((names.map pyStrip).filter (· ≠ ""))).1 db
        fetchFor embedFor order with hp2
      have hre : ∀ n d, List.lookup n p2.1 = some d →
          reloadById p2.2 (p2.1.map (fun p => p.2.id)) d.id = some d := by
        intro n d hl
        exact reload_self p2.2 _ d (hvals (n, d) (lookup_some_mem n p2.1 d hl))
          (List.mem_map.mpr ⟨(n, d), lookup_some_mem n p2.1 d hl, rfl⟩) hok2.1
      have hmain : lookupDrugs db fetchFor embedFor order names =
          (dedupById (((names.map pyStrip).filter (· ≠ "")).filterMap
            (fun n => List.lookup n p2.1)),
           ((names.map pyStrip).filter (· ≠ "")).filter
            (fun n => List.lookup n p2.1 = none)) := by
        unfold lookupDrugs
        rw [if_neg h0]
        dsimp only
        rw [if_neg h1, ← hp2]
        unfold lookupPhase3
        dsimp only
        rw [lookupPhase3_fold p2.1 p2.2 (p2.1.map (fun p => p.2.id)) hre
          ((names.map pyStrip).filter (· ≠ "")) [] [] []]
        unfold dedupById
        simp
      refine ⟨?_, ?_, fun n => List.lookup n p2.1, ?_, ?_⟩
      · intro m hm
        rw [hmain] at hm
        have hmc : m ∈ (names.map pyStrip).filter (· ≠ "") := List.mem_of_mem_filter hm
        have h2 := List.of_mem_filter hmc
        obtain ⟨n, hn, hne⟩ := List.mem_map.mp (List.mem_of_mem_filter hmc)
        exact ⟨n, hn, hne.symm, by simpa using h2⟩
      · rw [hmain]
        exact (dedupByIdAux_spec _ []).1
      · rw [hmain]
      · rw [hmain]

/-- C8 witness: a concrete three-name batch with one pre-existing exact hit,
one failing ingestion, and a brand-name alias of the stored record. -/
theorem batch_lookup_order_witness :
    (∀ m ∈ (lookupDrugs w8db w8fetch w8embed ["unknowndrug"] w8names).2,
      ∃ n ∈ w8names, m = pyStrip n ∧ m ≠ "") ∧
    (((lookupDrugs w8db w8fetch w8embed ["unknowndrug"] w8names).1.map (·.id)).Nodup) ∧
    ∃ resolve : String → Option DrugRow,
      (lookupDrugs w8db w8fetch w8embed ["unknowndrug"] w8names).1 =
        dedupById (((w8names.map pyStrip).filter (· ≠ "")).filterMap resolve) ∧
      (lookupDrugs w8db w8fetch w8embed ["unknowndrug"] w8names).2 =
        ((w8names.map pyStrip).filter (· ≠ "")).filter (fun n => resolve n = none) :=
  batch_lookup_order w8db w8fetch w8embed ["unknowndrug"] w8names
    ⟨by decide, by decide⟩ (by decide)

end Clerasense
